import Mathlib

/-!
# StegDetector — formal model of the LSB steganography codec and steganalysis engine

A shallow embedding of the core of the StegDetector repository
(`core/stego_audio.py`, `core/stego_video.py`, `core/audio_detector.py`,
`core/video_detector.py`) together with proofs of the specification's claims
about it.

Modelling conventions:
* text (messages, verdicts, sentinels) is a `List Nat` of Unicode code points;
* byte strings are `List Nat` with values `< 256`;
* bit sequences are `List Bool` (`true` = bit 1), matching the `0/1` `uint8`
  arrays of the Python code;
* Python's nonnegative-integer bitwise idioms are transliterated to
  `Nat`/`Int` arithmetic: `b >> i & 1` is `b / 2 ^ i % 2`, and on a
  two's-complement integer `(x & ~1) | bit` is `x - x % 2 + bit`
  (`%` on `Int` being the nonnegative Euclidean remainder);
* fallible Python code (raised exceptions) is embedded with `Except`/`Option`;
* real-valued scores are modelled in `ℚ`.
-/

namespace StegDetector

/-- Code points of a Lean string literal, used to spell out the fixed strings
(sentinels, verdicts, method names) appearing in the Python source. -/
def stringCodes (s : String) : List Nat := s.toList.map Char.toNat

/-- CPython's `str.isspace` / `str.strip` whitespace set (`Py_UNICODE_ISSPACE`):
the characters stripped by `msg.strip()`. -/
def pyIsSpace (c : Nat) : Bool :=
  decide ((9 ≤ c ∧ c ≤ 13) ∨ (28 ≤ c ∧ c ≤ 32) ∨ c = 0x85 ∨ c = 0xA0 ∨ c = 0x1680 ∨
    (0x2000 ≤ c ∧ c ≤ 0x200A) ∨ c = 0x2028 ∨ c = 0x2029 ∨ c = 0x202F ∨ c = 0x205F ∨
    c = 0x3000)

/-- Python's `s.strip()`: drop leading and trailing whitespace. -/
def pyStrip (s : List Nat) : List Nat :=
  ((s.dropWhile pyIsSpace).reverse.dropWhile pyIsSpace).reverse

/-- A Unicode scalar value: encodable by Python's `str.encode("utf-8")`
(surrogates are rejected by the UTF-8 encoder). -/
def validScalar (c : Nat) : Prop := c < 0xD800 ∨ (0xE000 ≤ c ∧ c < 0x110000)

instance (c : Nat) : Decidable (validScalar c) := by unfold validScalar; infer_instance

/-- UTF-8 encoding of one scalar value, as produced by `message.encode("utf-8")`.
`c >> k & 0x3F` is written `c / 2 ^ k % 64`. -/
def utf8EncodeChar (c : Nat) : List Nat :=
  if c < 0x80 then [c]
  else if c < 0x800 then [0xC0 + c / 64, 0x80 + c % 64]
  else if c < 0x10000 then [0xE0 + c / 4096, 0x80 + c / 64 % 64, 0x80 + c % 64]
  else [0xF0 + c / 262144, 0x80 + c / 4096 % 64, 0x80 + c / 64 % 64, 0x80 + c % 64]

/-- `message.encode("utf-8")`: the UTF-8 byte string of a message. -/
def utf8Encode (msg : List Nat) : List Nat := msg.flatMap utf8EncodeChar

/-- A UTF-8 continuation byte (`0x80 ≤ b ≤ 0xBF`). -/
def isCont (b : Nat) : Bool := decide (0x80 ≤ b ∧ b ≤ 0xBF)

/-- Valid second byte of a multi-byte UTF-8 sequence with lead byte `b`
(the lead-specific ranges that exclude overlong forms and surrogates). -/
def utf8SecondOk (b b2 : Nat) : Bool :=
  if b = 0xE0 then decide (0xA0 ≤ b2 ∧ b2 ≤ 0xBF)
  else if b = 0xED then decide (0x80 ≤ b2 ∧ b2 ≤ 0x9F)
  else if b = 0xF0 then decide (0x90 ≤ b2 ∧ b2 ≤ 0xBF)
  else if b = 0xF4 then decide (0x80 ≤ b2 ∧ b2 ≤ 0x8F)
  else isCont b2

/-- Python's `bytes.decode("utf-8", errors="replace")`: UTF-8 decoding where
every maximal ill-formed subpart is replaced by one U+FFFD, following the
Unicode substitution-of-maximal-subparts practice implemented by CPython. -/
def utf8DecodeReplace : List Nat → List Nat
  | [] => []
  | b :: rest =>
    if b ≤ 0x7F then b :: utf8DecodeReplace rest
    else if b < 0xC2 then 0xFFFD :: utf8DecodeReplace rest
    else if b ≤ 0xDF then
      match rest with
      | [] => [0xFFFD]
      | b2 :: r2 =>
        if isCont b2 then ((b - 0xC0) * 64 + (b2 - 0x80)) :: utf8DecodeReplace r2
        else 0xFFFD :: utf8DecodeReplace (b2 :: r2)
    else if b ≤ 0xEF then
      match rest with
      | [] => [0xFFFD]
      | b2 :: r2 =>
        if utf8SecondOk b b2 then
          match r2 with
          | [] => [0xFFFD]
          | b3 :: r3 =>
            if isCont b3 then
              ((b - 0xE0) * 4096 + (b2 - 0x80) * 64 + (b3 - 0x80)) :: utf8DecodeReplace r3
            else 0xFFFD :: utf8DecodeReplace (b3 :: r3)
        else 0xFFFD :: utf8DecodeReplace (b2 :: r2)
    else if b ≤ 0xF4 then
      match rest with
      | [] => [0xFFFD]
      | b2 :: r2 =>
        if utf8SecondOk b b2 then
          match r2 with
          | [] => [0xFFFD]
          | b3 :: r3 =>
            if isCont b3 then
              match r3 with
              | [] => [0xFFFD]
              | b4 :: r4 =>
                if isCont b4 then
                  ((b - 0xF0) * 262144 + (b2 - 0x80) * 4096 + (b3 - 0x80) * 64 + (b4 - 0x80)) ::
                    utf8DecodeReplace r4
                else 0xFFFD :: utf8DecodeReplace (b4 :: r4)
            else 0xFFFD :: utf8DecodeReplace (b3 :: r3)
        else 0xFFFD :: utf8DecodeReplace (b2 :: r2)
    else 0xFFFD :: utf8DecodeReplace rest

/-! ## Bitstream codec (`_encode_message_to_bits` / `_decode_bits_to_message`) -/

/-- Numeric value of one bit. -/
def bitVal (b : Bool) : Nat := if b then 1 else 0

/-- `int.to_bytes(4, byteorder="big")`: the four big-endian bytes of `n`
(for `n < 2^32`; Python raises `OverflowError` above that, so theorems about
the encoders carry that bound as a hypothesis). -/
def toBytesBE4 (n : Nat) : List Nat :=
  [n / 16777216 % 256, n / 65536 % 256, n / 256 % 256, n % 256]

/-- `core/stego_audio.py`: the 8 bits of the byte `b`, most significant first,
as produced by `f"\x7bb:08b\x7d"` (the binary digits of a byte, zero-padded
to width 8); digit `k` from the left is `b / 2 ^ (7 - k) % 2`. -/
def audioByteBits (b : Nat) : List Bool :=
  [decide (b / 128 % 2 = 1), decide (b / 64 % 2 = 1), decide (b / 32 % 2 = 1),
   decide (b / 16 % 2 = 1), decide (b / 8 % 2 = 1), decide (b / 4 % 2 = 1),
   decide (b / 2 % 2 = 1), decide (b % 2 = 1)]

/-- `core/stego_video.py`: `for i in range(7, -1, -1): bit_list.append((b >> i) & 1)` —
the 8 bits of the byte `b`, most significant first, via shift-and-mask. -/
def videoByteBits (b : Nat) : List Bool :=
  (List.range 8).reverse.map (fun i => decide ((b >>> i) &&& 1 = 1))

/-- `core/stego_audio.py` `_encode_message_to_bits`: UTF-8-encode the message,
prepend the 4-byte big-endian byte length, expand every byte to 8 bits MSB-first. -/
def audio_encode_message_to_bits (message : List Nat) : List Bool :=
  let msg_bytes := utf8Encode message
  let payload := toBytesBE4 msg_bytes.length ++ msg_bytes
  payload.flatMap audioByteBits

/-- `core/stego_video.py` `_encode_message_to_bits`: identical framing, with the
bit expansion written as a shift-and-mask loop. -/
def video_encode_message_to_bits (message : List Nat) : List Bool :=
  let msg_bytes := utf8Encode message
  let payload := toBytesBE4 msg_bytes.length ++ msg_bytes
  payload.flatMap videoByteBits

/-- Modelled from the spec: the reference payload wire format,
`[4 bytes big-endian length L][L bytes UTF-8 text]`, each byte expanded
MSB-first (bit `k` from the left of a byte `b` is `b.testBit (7 - k)`). -/
def wireFormatBits (msg_bytes : List Nat) : List Bool :=
  (toBytesBE4 msg_bytes.length ++ msg_bytes).flatMap
    (fun b => (List.range 8).map (fun k => b.testBit (7 - k)))

/-- The MSB-first accumulation loop `val = (val << 1) | int(bit)`:
since the shifted value has least significant bit 0, this is `2 * val + bit`. -/
def bitsToNatMSB (bits : List Bool) : Nat :=
  bits.foldl (fun v b => 2 * v + bitVal b) 0

/-- The byte-recovery loop of `_decode_bits_to_message`: the bit sequence is
reshaped into rows of 8 and each row is folded MSB-first into one byte
(`_decode_bits_to_message` only ever passes a multiple of 8 bits). -/
def bitsToBytesMSB : List Bool → List Nat
  | b0 :: b1 :: b2 :: b3 :: b4 :: b5 :: b6 :: b7 :: rest =>
    bitsToNatMSB [b0, b1, b2, b3, b4, b5, b6, b7] :: bitsToBytesMSB rest
  | _ => []

/-- `_decode_bits_to_message` (identical in `core/stego_audio.py`, default
`max_len_bytes = 100_000`, and `core/stego_video.py`, default `200_000`):
require 32 bits, read the big-endian 32-bit length `L`, reject implausible
headers, recover `L` bytes MSB-first, UTF-8-decode with lossy replacement,
reject empty/whitespace-only text. -/
def decode_bits_to_message (bits : List Bool) (max_len_bytes : Nat) : Option (List Nat) :=
  if bits.length < 32 then none
  else
    let length_val := bitsToNatMSB (bits.take 32)
    let max_possible := (bits.length - 32) / 8
    if length_val = 0 ∨ length_val > max_possible ∨ length_val > max_len_bytes then none
    else
      let needed := 32 + length_val * 8
      if bits.length < needed then none
      else
        let msg_bits := (bits.drop 32).take (length_val * 8)
        let msg := utf8DecodeReplace (bitsToBytesMSB msg_bits)
        if pyStrip msg = [] then none else some msg

/-- The 32-bit big-endian header read by `_decode_bits_to_message`. -/
def headerVal (bits : List Bool) : Nat := bitsToNatMSB (bits.take 32)

/-- The text the decoder recovers for a plausible header: `L` bytes MSB-first
after the header, UTF-8-decoded with lossy replacement. -/
def payloadText (bits : List Bool) : List Nat :=
  utf8DecodeReplace (bitsToBytesMSB ((bits.drop 32).take (headerVal bits * 8)))

/-- The exact rejection condition of `_decode_bits_to_message`: fewer than 32
bits, or zero header, or header above the byte cap, or header above the
remaining bits divided by 8, or empty/whitespace-only recovered text. -/
def decodeRejects (bits : List Bool) (maxLen : Nat) : Prop :=
  bits.length < 32 ∨ headerVal bits = 0 ∨ headerVal bits > maxLen ∨
    headerVal bits > (bits.length - 32) / 8 ∨ pyStrip (payloadText bits) = []

instance (bits : List Bool) (maxLen : Nat) : Decidable (decodeRejects bits maxLen) := by
  unfold decodeRejects; infer_instance

/-! ## Audio codec (`core/stego_audio.py`)

An audio carrier is its flattened sequence of signed 16-bit PCM samples
(row-major `(samples, channels)` flatten order, as in `int_data.reshape(-1)`)
together with its channel count and sample rate.  Loading and saving are
lossless integer PCM I/O (`sf.read(dtype="int16")` / `sf.write(subtype="PCM_16")`),
so the model works directly on the decoded samples. -/

structure AudioData where
  samples : List Int
  channels : Nat
  sampleRate : Nat
deriving DecidableEq

/-- `ValueError("Message too long for this audio. Capacity bits = ..., needed = ...")`. -/
inductive AudioEmbedError
  | capacity (capacityBits needed : Nat)
deriving DecidableEq

/-- `(x & ~1) | bit` on a two's-complement integer: clear the least significant
bit, then OR in the payload bit.  Equals `x - x % 2 + bit` (`%` is the
nonnegative Euclidean remainder, so `x - x % 2` is `x` with bit 0 cleared). -/
def setLSBInt (x : Int) (b : Bool) : Int := x - x % 2 + bitVal b

/-- `flat & 1` on a two's-complement integer: its least significant bit. -/
def lsbInt (x : Int) : Bool := decide (x % 2 = 1)

/-- `flat32[:bits.size] = (flat32[:bits.size] & ~1) | bits`: overwrite the LSBs
of the first `bits.length` samples, leave the rest untouched. -/
def embedBitsIntoSamples : List Int → List Bool → List Int
  | s :: ss, b :: bs => setLSBInt s b :: embedBitsIntoSamples ss bs
  | ss, [] => ss
  | [], _ :: _ => []

/-- `embed_lsb_audio`: capacity is the flattened sample count (one bit per
sample); reject an oversized message before touching any sample, else
overwrite the first `bits.length` LSBs and re-encode at the original rate. -/
def embed_lsb_audio (cover : AudioData) (message : List Nat) :
    Except AudioEmbedError AudioData :=
  let bits := audio_encode_message_to_bits message
  let capacity := cover.samples.length
  if bits.length > capacity then .error (.capacity capacity bits.length)
  else .ok { cover with samples := embedBitsIntoSamples cover.samples bits }

/-- The fixed sentinel returned by `extract_lsb_audio` when no plausible
payload is found. -/
def audioNoPayloadSentinel : List Nat :=
  stringCodes ("[No valid LSB text payload found in this audio file]")

/-- `extract_lsb_audio`: take the LSB of every flattened sample in order,
run the codec's decode (audio default `max_len_bytes = 100_000`), and return
the fixed sentinel instead of raising when the decode reports absent. -/
def extract_lsb_audio (stego : AudioData) : List Nat :=
  let bits := stego.samples.map lsbInt
  match decode_bits_to_message bits 100000 with
  | none => audioNoPayloadSentinel
  | some msg => msg

/-! ## Video codec (`core/stego_video.py`)

A video carrier is its ordered list of frames, each frame the row-major
flattened list of its 8-bit RGB color bytes.  Frame extraction and
re-encoding around the bit-plane rewrite are lossless (`-pix_fmt rgb24`
PNG frames, FFV1 re-encoding), so the model works directly on the frame
bytes. -/

/-- `RuntimeError("No frames extracted from video")` and
`ValueError("Video too small for message. Capacity bits=..., needed=...")`. -/
inductive VideoEmbedError
  | noFrames
  | capacity (capacityBits needed : Nat)
deriving DecidableEq

/-- Whether a `VideoEmbedError` is the capacity error. -/
def VideoEmbedError.isCapacity : VideoEmbedError → Bool
  | .capacity _ _ => true
  | .noFrames => false

/-- The per-byte embedding step
`flat[i] = flat[i] | 0x01` (bit 1) / `flat[i] = flat[i] & 0xFE` (bit 0):
on a `uint8` value this sets / clears the least significant bit,
i.e. `x - x % 2 + 1` / `x - x % 2`. -/
def setLSBByte (x : Nat) (b : Bool) : Nat :=
  if b then x - x % 2 + 1 else x - x % 2

/-- `flat & 1` on a byte: its least significant bit. -/
def lsbByte (x : Nat) : Bool := decide (x % 2 = 1)

/-- The embedding loop `for i in range(bits.size): ...` over the concatenated
frame bytes: overwrite the LSBs of the first `bits.length` bytes. -/
def embedBitsIntoBytes : List Nat → List Bool → List Nat
  | x :: xs, b :: bs => setLSBByte x b :: embedBitsIntoBytes xs bs
  | xs, [] => xs
  | [], _ :: _ => []

/-- Reshaping the modified flat buffer back into frames of their original
sizes (`flat[idx : idx + size].reshape(frames[i].shape)`). -/
def splitSizes (flat : List Nat) : List Nat → List (List Nat)
  | [] => []
  | n :: rest => flat.take n :: splitSizes (flat.drop n) rest

/-- `embed_lsb_video`: fail if no frames were extracted; capacity is the total
RGB byte count over all frames; reject an oversized message before modifying
any byte; else rewrite the LSBs of the concatenated byte stream and split it
back into the original frame shapes. -/
def embed_lsb_video (frames : List (List Nat)) (message : List Nat) :
    Except VideoEmbedError (List (List Nat)) :=
  if frames.isEmpty then .error .noFrames
  else
    let flat := frames.flatten
    let capacity := flat.length
    let bits := video_encode_message_to_bits message
    if bits.length > capacity then .error (.capacity capacity bits.length)
    else .ok (splitSizes (embedBitsIntoBytes flat bits) (frames.map List.length))

/-- The fixed sentinel returned by `extract_lsb_video` when no plausible
payload is found. -/
def videoNoPayloadSentinel : List Nat :=
  stringCodes ("[No valid LSB text payload found in this video]")

/-- The distinct sentinel `extract_lsb_video` returns when the container
yields no frames at all. -/
def videoNoFramesSentinel : List Nat :=
  stringCodes ("[No frames found in this video]")

/-- `extract_lsb_video`: take the LSB of every byte of every frame in order,
concatenate across frames, run the codec's decode (video default
`max_len_bytes = 200_000`); return a sentinel instead of raising when there
are no frames or the decode reports absent. -/
def extract_lsb_video (frames : List (List Nat)) : List Nat :=
  if frames.isEmpty then videoNoFramesSentinel
  else
    let bits := frames.flatMap (fun f => f.map lsbByte)
    match decode_bits_to_message bits 200000 with
    | none => videoNoPayloadSentinel
    | some msg => msg

/-! ## Steganalysis engine (`core/audio_detector.py`, `core/video_detector.py`)

Scores are modelled in `ℚ`; the classifier artifacts, the feature pipeline and
the external media I/O are modelled by an explicit environment record whose
fields say which of the fallible external steps succeed and what numbers they
produce, while all control flow and combination logic is transliterated from
the source. -/

/-- One per-method result dictionary: method name, numeric score or null,
the `p0`/`p1` keys of the statistical methods, and a human verdict string. -/
structure MethodResult where
  method : List Nat
  score : Option ℚ
  p0 : Option ℚ
  p1 : Option ℚ
  verdict : List Nat
deriving DecidableEq

/-- The combined overview returned by `analyze_audio` / `analyze_video`. -/
structure Overview where
  best_score : Option ℚ
  best_method : Option (List Nat)
  methods : List MethodResult
deriving DecidableEq

/-- The spec-side description of the combination contract: if every score is
null so is the best; every non-null score is bounded by the best score; and
the best method is the first (earliest in evaluation order) method attaining
the best score. -/
def overviewSpec (ov : Overview) : Prop :=
  ((∀ r ∈ ov.methods, r.score = none) → ov.best_score = none ∧ ov.best_method = none) ∧
  (∀ r ∈ ov.methods, ∀ s, r.score = some s → ∃ b, ov.best_score = some b ∧ s ≤ b) ∧
  (∀ b, ov.best_score = some b →
    ∃ r, ov.methods.find? (fun r => r.score == some b) = some r ∧
      ov.best_method = some r.method ∧ r.score = some b)

/-- One step of the combination loop: skip null scores, replace the running
best when `r["score"] > best` (`best is None` counts as replace). -/
def combineStep (acc : Option ℚ × Option (List Nat)) (r : MethodResult) :
    Option ℚ × Option (List Nat) :=
  match r.score with
  | none => acc
  | some s =>
    match acc.1 with
    | none => (some s, some r.method)
    | some b => if b < s then (some s, some r.method) else acc

/-- The combination loop of `analyze_audio` / `analyze_video` over the
per-method results, starting from `best = None`. -/
def combineBest (results : List MethodResult) : Option ℚ × Option (List Nat) :=
  results.foldl combineStep (none, none)

/-- Decimal rendering of a number interpolated into an f-string. -/
def natDec (n : Nat) : List Nat := (Nat.toDigits 10 n).map Char.toNat

/-! ### Fixed strings of the detectors -/

def methodA1 : List Nat := stringCodes ("A1_LSB_stats")

def methodA2 : List Nat := stringCodes ("A2_MFCC_SVM")

def methodV1 : List Nat := stringCodes ("V1_frame_LSB_stats")

def methodV2 : List Nat := stringCodes ("V2_frame_SVM")

def verdictSkewed : List Nat := stringCodes ("Likely clean (LSB distribution skewed)")

def verdictModerate : List Nat := stringCodes ("Uncertain (LSB distribution moderate)")

def verdictBalanced : List Nat := stringCodes ("Suspicious (LSB distribution very balanced)")

def verdictAudioTooShort : List Nat := stringCodes ("Audio too short / invalid")

def verdictNoFrames : List Nat := stringCodes ("No frames extracted")

def verdictLikelyClean : List Nat := stringCodes ("Likely clean")

def verdictUncertain : List Nat := stringCodes ("Uncertain")

def verdictLikelyStego : List Nat := stringCodes ("Likely stego")

def verdictAudioNotTrained : List Nat :=
  stringCodes ("Model not trained yet. Run training/train_audio_svm.py.")

def verdictVideoNotTrained : List Nat :=
  stringCodes ("Model not trained yet. Run training/train_video_svm.py.")

/-- `f"Could not load video SVM model: \x7be\x7d"`. -/
def verdictVideoLoadFailed (e : List Nat) : List Nat :=
  stringCodes ("Could not load video SVM model: ") ++ e

/-- `f"Feature extraction failed: \x7be\x7d"`. -/
def verdictVideoFeaturesFailed (e : List Nat) : List Nat :=
  stringCodes ("Feature extraction failed: ") ++ e

/-- The self-describing dimension-mismatch verdict of `video_frame_svm`,
with the raw dimension detail and the internal error text interpolated. -/
def verdictVideoDimMismatch (got expected : Nat) (e : List Nat) : List Nat :=
  stringCodes ("Video SVM model is not compatible with the current feature vector (got ") ++
    natDec got ++
    stringCodes (" features; scaler expects ") ++
    natDec expected ++
    stringCodes ("). You likely changed extract_video_features() after training. ") ++
    stringCodes ("Re-run training/train_video_svm.py with the current features ") ++
    stringCodes ("if you want V2 to work, or ignore this message and rely on V1.") ++
    [10] ++ stringCodes ("Internal error: ") ++ e

/-- `f"Video SVM prediction failed: \x7be\x7d"`. -/
def verdictVideoPredictFailed (e : List Nat) : List Nat :=
  stringCodes ("Video SVM prediction failed: ") ++ e

/-! ### Statistical methods (A1 / V1) -/

/-- `audio_lsb_statistics` over the decoded 16-bit PCM samples: on empty audio
return score `0.0` with a descriptive verdict; else let `p1` be the fraction
of 1-LSBs and score `balance = 1.0 - abs(p1 - 0.5) * 2.0`, mapped to a
verdict at the fixed thresholds `0.4` and `0.7`. -/
def audio_lsb_statistics (pcm : List Int) : MethodResult :=
  if pcm.isEmpty then
    { method := methodA1, score := some 0, p0 := none, p1 := none,
      verdict := verdictAudioTooShort }
  else
    let ones := (pcm.map lsbInt).count true
    let total := pcm.length
    let p1 : ℚ := (ones : ℚ) / (total : ℚ)
    let p0 : ℚ := ((total - ones : Nat) : ℚ) / (total : ℚ)
    let balance : ℚ := 1 - |p1 - 1/2| * 2
    let verdict :=
      if balance < 2/5 then verdictSkewed
      else if balance < 7/10 then verdictModerate
      else verdictBalanced
    { method := methodA1, score := some balance, p0 := some p0, p1 := some p1,
      verdict := verdict }

/-- OpenCV's 8-bit `cv2.COLOR_BGR2GRAY`, fixed-point
`(B*1868 + G*9617 + R*4899 + 2^13) >> 14`. -/
def cvtGrayBGR (b g r : Nat) : Nat := (1868 * b + 9617 * g + 4899 * r + 8192) / 16384

/-- `frame_lsb_statistics` over a list of BGR frames (each frame a flattened
list of BGR pixel triples): on no frames return score `0.0` with a
descriptive verdict; else the same balance statistic over the LSBs of the
grayscale-converted pixels of all frames.  (A frame list with frames but
zero total pixels would divide by zero in the source; theorems about the
balance require at least one pixel.) -/
def frame_lsb_statistics (frames : List (List (Nat × Nat × Nat))) : MethodResult :=
  if frames.isEmpty then
    { method := methodV1, score := some 0, p0 := none, p1 := none,
      verdict := verdictNoFrames }
  else
    let all_lsb := frames.flatMap (fun f => f.map (fun px => lsbByte (cvtGrayBGR px.1 px.2.1 px.2.2)))
    let ones := all_lsb.count true
    let total := all_lsb.length
    let p1 : ℚ := (ones : ℚ) / (total : ℚ)
    let p0 : ℚ := ((total - ones : Nat) : ℚ) / (total : ℚ)
    let balance : ℚ := 1 - |p1 - 1/2| * 2
    let verdict :=
      if balance < 2/5 then verdictSkewed
      else if balance < 7/10 then verdictModerate
      else verdictBalanced
    { method := methodV1, score := some balance, p0 := some p0, p1 := some p1,
      verdict := verdict }

/-! ### Learned methods (A2 / V2) -/

/-- Environment of `audio_mfcc_svm`: which external steps succeed.
`scalerNFeatures` is the artifact's expected feature dimensionality,
`nFeatures` the length of the feature vector computed from the file
(30 with the current `extract_audio_features`), `proba` the classifier's
stego probability when everything works. -/
structure AudioModelEnv where
  scalerExists : Bool
  svmExists : Bool
  loadOk : Bool
  featuresOk : Bool
  nFeatures : Nat
  scalerNFeatures : Nat
  proba : ℚ
deriving DecidableEq

/-- The exceptions `audio_mfcc_svm` can let escape: a failing `joblib.load`,
a failing `extract_audio_features`, or the `ValueError` that
`scaler.transform` raises on a feature-dimension mismatch.  None of these is
caught in `audio_detector.py`. -/
inductive AudioSvmError
  | loadRaised
  | featureRaised
  | transformRaised (got expected : Nat)
deriving DecidableEq

/-- `audio_mfcc_svm`: return a null score with a verdict only when a model
file is missing; afterwards `joblib.load`, `extract_audio_features` and
`scaler.transform` run unguarded, so their exceptions propagate.  On success,
score `P(stego)` with verdict thresholds `0.3` / `0.7`. -/
def audio_mfcc_svm (env : AudioModelEnv) : Except AudioSvmError MethodResult :=
  if ¬(env.scalerExists && env.svmExists) then
    .ok { method := methodA2, score := none, p0 := none, p1 := none,
          verdict := verdictAudioNotTrained }
  else if ¬env.loadOk then .error .loadRaised
  else if ¬env.featuresOk then .error .featureRaised
  else if env.nFeatures ≠ env.scalerNFeatures then
    .error (.transformRaised env.nFeatures env.scalerNFeatures)
  else
    let verdict :=
      if env.proba < 3/10 then verdictLikelyClean
      else if env.proba < 7/10 then verdictUncertain
      else verdictLikelyStego
    .ok { method := methodA2, score := some env.proba, p0 := none, p1 := none,
          verdict := verdict }

/-- Environment of `video_frame_svm`, with the rendered exception texts the
`except` branches interpolate into their verdicts. -/
structure VideoModelEnv where
  scalerExists : Bool
  svmExists : Bool
  loadOk : Bool
  loadErr : List Nat
  featuresOk : Bool
  featuresErr : List Nat
  nFeatures : Nat
  scalerNFeatures : Nat
  transformErr : List Nat
  predictOk : Bool
  predictErr : List Nat
  proba : ℚ
deriving DecidableEq

/-- `video_frame_svm`: every external step is wrapped in `try/except`, so the
method never raises; each failure mode returns a null score with its own
self-describing verdict.  On success, score `P(stego)` with verdict
thresholds `0.4` / `0.6`. -/
def video_frame_svm (env : VideoModelEnv) : MethodResult :=
  if ¬(env.scalerExists && env.svmExists) then
    { method := methodV2, score := none, p0 := none, p1 := none,
      verdict := verdictVideoNotTrained }
  else if ¬env.loadOk then
    { method := methodV2, score := none, p0 := none, p1 := none,
      verdict := verdictVideoLoadFailed env.loadErr }
  else if ¬env.featuresOk then
    { method := methodV2, score := none, p0 := none, p1 := none,
      verdict := verdictVideoFeaturesFailed env.featuresErr }
  else if env.nFeatures ≠ env.scalerNFeatures then
    { method := methodV2, score := none, p0 := none, p1 := none,
      verdict := verdictVideoDimMismatch env.nFeatures env.scalerNFeatures env.transformErr }
  else if ¬env.predictOk then
    { method := methodV2, score := none, p0 := none, p1 := none,
      verdict := verdictVideoPredictFailed env.predictErr }
  else
    let verdict :=
      if env.proba < 2/5 then verdictLikelyClean
      else if env.proba < 3/5 then verdictUncertain
      else verdictLikelyStego
    { method := methodV2, score := some env.proba, p0 := none, p1 := none,
      verdict := verdict }

/-- `analyze_audio`: A1 then A2 in evaluation order, combined by the
max-score loop.  An exception escaping `audio_mfcc_svm` aborts the whole
analysis (there is no `try` around it). -/
def analyze_audio (env : AudioModelEnv) (pcm : List Int) :
    Except AudioSvmError Overview :=
  match audio_mfcc_svm env with
  | .error e => .error e
  | .ok r2 =>
    let results := [audio_lsb_statistics pcm, r2]
    let best := combineBest results
    .ok { best_score := best.1, best_method := best.2, methods := results }

/-- `analyze_video`: V1 (over the extracted frames) then V2, combined by the
same max-score loop; total, since `video_frame_svm` never raises. -/
def analyze_video (frames : List (List (Nat × Nat × Nat))) (env : VideoModelEnv) :
    Overview :=
  let results := [frame_lsb_statistics frames, video_frame_svm env]
  let best := combineBest results
  { best_score := best.1, best_method := best.2, methods := results }

/-! ### Concrete instances used in witnesses and counterexamples -/

/-- The code points of the message of the spec's concrete scenario. -/
def helloMessage : List Nat := stringCodes ("HELLO")

/-- A mono 16-bit PCM carrier with exactly the 72 zero samples that the
encoded form of the concrete scenario's message needs. -/
def silentCover72 : AudioData :=
  { samples := List.replicate 72 0, channels := 1, sampleRate := 44100 }

/-- A mono 16-bit PCM carrier with 40 zero samples: exactly the capacity of a
one-byte message. -/
def silentCover40 : AudioData :=
  { samples := List.replicate 40 0, channels := 1, sampleRate := 44100 }

/-- A one-frame video carrier with 72 zero bytes. -/
def blackFrames72 : List (List Nat) := [List.replicate 72 0]

/-- A one-frame video carrier with 40 zero bytes. -/
def blackFrames40 : List (List Nat) := [List.replicate 40 0]

/-- The stego file produced by embedding the concrete scenario's message into
`silentCover72`. -/
def stegoHello72 : AudioData :=
  { samples := embedBitsIntoSamples silentCover72.samples
      (audio_encode_message_to_bits helloMessage),
    channels := 1, sampleRate := 44100 }

/-- An audio analysis environment in which both artifacts exist and load but
the scaler expects 31 features while 30 are computed. -/
def audioEnvDimMismatch : AudioModelEnv :=
  { scalerExists := true, svmExists := true, loadOk := true, featuresOk := true,
    nFeatures := 30, scalerNFeatures := 31, proba := 0 }

/-- An audio analysis environment in which the artifact files are missing. -/
def audioEnvMissing : AudioModelEnv :=
  { scalerExists := false, svmExists := false, loadOk := true, featuresOk := true,
    nFeatures := 30, scalerNFeatures := 30, proba := 0 }

/-- A fully working audio analysis environment. -/
def audioEnvOk : AudioModelEnv :=
  { scalerExists := true, svmExists := true, loadOk := true, featuresOk := true,
    nFeatures := 30, scalerNFeatures := 30, proba := 4/5 }

/-- A video analysis environment in which both artifacts exist and load but
the scaler expects 64 features while 32 are computed. -/
def videoEnvDimMismatch : VideoModelEnv :=
  { scalerExists := true, svmExists := true, loadOk := true, loadErr := [],
    featuresOk := true, featuresErr := [], nFeatures := 32, scalerNFeatures := 64,
    transformErr := [], predictOk := true, predictErr := [], proba := 0 }

/-- A video analysis environment in which the artifact files are missing. -/
def videoEnvMissing : VideoModelEnv :=
  { scalerExists := false, svmExists := false, loadOk := true, loadErr := [],
    featuresOk := true, featuresErr := [], nFeatures := 32, scalerNFeatures := 32,
    transformErr := [], predictOk := true, predictErr := [], proba := 0 }

/-- A video analysis environment whose artifact is unreadable
(`joblib.load` raises). -/
def videoEnvLoadBroken : VideoModelEnv :=
  { scalerExists := true, svmExists := true, loadOk := false,
    loadErr := stringCodes ("invalid load key"), featuresOk := true, featuresErr := [],
    nFeatures := 32, scalerNFeatures := 32, transformErr := [], predictOk := true,
    predictErr := [], proba := 0 }

/-- The overview produced by analyzing a tiny two-sample file (one even, one
odd sample) under the working audio environment. -/
def demoAudioOverview : Overview :=
  (analyze_audio audioEnvOk [0, 1]).toOption.getD
    { best_score := none, best_method := none, methods := [] }

/-- A fully working video analysis environment. -/
def videoEnvOk : VideoModelEnv :=
  { scalerExists := true, svmExists := true, loadOk := true, loadErr := [],
    featuresOk := true, featuresErr := [], nFeatures := 32, scalerNFeatures := 32,
    transformErr := [], predictOk := true, predictErr := [], proba := 7/10 }

/-! ## Supporting lemmas: bit packing -/

theorem bitVal_decide_mod (x : Nat) : bitVal (decide (x % 2 = 1)) = x % 2 := by
  rcases Nat.mod_two_eq_zero_or_one x with h | h <;> simp [bitVal, h]

theorem bitsToNatMSB_from (bits : List Bool) (v : Nat) :
    bits.foldl (fun v b => 2 * v + bitVal b) v = v * 2 ^ bits.length + bitsToNatMSB bits := by
  induction bits generalizing v with
  | nil => simp [bitsToNatMSB]
  | cons b bs ih =>
    simp only [List.foldl_cons, List.length_cons, bitsToNatMSB] at *
    rw [ih (2 * v + bitVal b), ih (2 * 0 + bitVal b), pow_succ]
    ring

theorem bitsToNatMSB_append (l1 l2 : List Bool) :
    bitsToNatMSB (l1 ++ l2) = bitsToNatMSB l1 * 2 ^ l2.length + bitsToNatMSB l2 := by
  unfold bitsToNatMSB
  rw [List.foldl_append, bitsToNatMSB_from]
  rfl

theorem bitsToNatMSB_audioByteBits (b : Nat) (h : b < 256) :
    bitsToNatMSB (audioByteBits b) = b := by
  simp only [audioByteBits, bitsToNatMSB, List.foldl_cons, List.foldl_nil, bitVal_decide_mod]
  omega

theorem bitsToNatMSB_lt (bits : List Bool) : bitsToNatMSB bits < 2 ^ bits.length := by
  induction bits with
  | nil => simp [bitsToNatMSB]
  | cons b bs ih =>
    have : bitsToNatMSB (b :: bs) = bitsToNatMSB [b] * 2 ^ bs.length + bitsToNatMSB bs := by
      simpa using bitsToNatMSB_append [b] bs
    have hb : bitsToNatMSB [b] = bitVal b := by simp [bitsToNatMSB]
    rw [hb] at this
    rw [this, List.length_cons, pow_succ]
    rcases b <;> simp [bitVal] <;> omega

theorem audioByteBits_length (b : Nat) : (audioByteBits b).length = 8 := rfl

theorem flatMap_audioByteBits_length (bytes : List Nat) :
    (bytes.flatMap audioByteBits).length = 8 * bytes.length := by
  induction bytes with
  | nil => rfl
  | cons b bs ih => simp [List.flatMap_cons, ih, audioByteBits_length]; ring

theorem bitsToBytesMSB_byteBits_cons (b : Nat) (rest : List Bool) :
    bitsToBytesMSB (audioByteBits b ++ rest) =
      bitsToNatMSB (audioByteBits b) :: bitsToBytesMSB rest := rfl

theorem bitsToBytesMSB_flatMap (bytes : List Nat) (h : ∀ b ∈ bytes, b < 256) :
    bitsToBytesMSB (bytes.flatMap audioByteBits) = bytes := by
  induction bytes with
  | nil => rfl
  | cons b bs ih =>
    rw [List.flatMap_cons, bitsToBytesMSB_byteBits_cons,
      bitsToNatMSB_audioByteBits b (h b (List.mem_cons_self b bs)),
      ih (fun x hx => h x (List.mem_cons_of_mem b hx))]

/-- The 32 header bits of the encoders decode back to the encoded length. -/
theorem bitsToNatMSB_header (n : Nat) (h : n < 4294967296) :
    bitsToNatMSB ((toBytesBE4 n).flatMap audioByteBits) = n := by
  simp only [toBytesBE4, List.flatMap_cons, List.flatMap_nil, List.append_nil]
  rw [bitsToNatMSB_append, bitsToNatMSB_append, bitsToNatMSB_append]
  simp only [List.length_append, audioByteBits_length]
  rw [bitsToNatMSB_audioByteBits _ (Nat.mod_lt _ (by omega)),
    bitsToNatMSB_audioByteBits _ (Nat.mod_lt _ (by omega)),
    bitsToNatMSB_audioByteBits _ (Nat.mod_lt _ (by omega)),
    bitsToNatMSB_audioByteBits _ (Nat.mod_lt _ (by omega))]
  omega

/-- The audio and video bit expansions of one byte agree. -/
theorem videoByteBits_eq_audioByteBits (b : Nat) : videoByteBits b = audioByteBits b := by
  have h : (List.range 8).reverse = [7, 6, 5, 4, 3, 2, 1, 0] := by decide
  simp only [videoByteBits, h, List.map_cons, List.map_nil, audioByteBits,
    Nat.shiftRight_eq_div_pow, Nat.and_one_is_mod]
  norm_num

/-- The spec's MSB-first bit expansion (via `testBit`) agrees with the audio
implementation's. -/
theorem wireByteBits_eq_audioByteBits (b : Nat) :
    (List.range 8).map (fun k => b.testBit (7 - k)) = audioByteBits b := by
  have h : List.range 8 = [0, 1, 2, 3, 4, 5, 6, 7] := by decide
  simp only [h, List.map_cons, List.map_nil, audioByteBits, Nat.testBit_to_div_mod]
  norm_num

/-! ## Supporting lemmas: the decode characterization -/

/-- `_decode_bits_to_message` returns `none` exactly on `decodeRejects` and the
recovered text otherwise.  (The source's later `bits.size < needed` re-check is
subsumed: `L ≤ (size − 32) / 8` already gives `32 + L*8 ≤ size`.) -/
theorem decode_eq_spec (bits : List Bool) (maxLen : Nat) :
    decode_bits_to_message bits maxLen =
      if decodeRejects bits maxLen then none else some (payloadText bits) := by
  by_cases h1 : bits.length < 32
  · simp [decode_bits_to_message, decodeRejects, h1]
  · by_cases h2 : headerVal bits = 0 ∨ headerVal bits > (bits.length - 32) / 8 ∨
        headerVal bits > maxLen
    · have hrej : decodeRejects bits maxLen := by unfold decodeRejects; tauto
      simp only [decode_bits_to_message, headerVal] at *
      rw [if_neg h1, if_pos (by tauto), if_pos hrej]
    · push_neg at h2
      obtain ⟨hz, hmp, hml⟩ := h2
      have hsz : ¬bits.length < 32 + headerVal bits * 8 := by
        have := (Nat.le_div_iff_mul_le (by omega : 0 < 8)).mp hmp
        omega
      have hnotrej1 : ¬(headerVal bits = 0 ∨ headerVal bits > (bits.length - 32) / 8 ∨
          headerVal bits > maxLen) := by rintro (h | h | h) <;> omega
      by_cases h3 : pyStrip (payloadText bits) = []
      · have hrej : decodeRejects bits maxLen := by unfold decodeRejects; tauto
        simp only [decode_bits_to_message, headerVal, payloadText] at *
        rw [if_neg h1, if_neg (by tauto), if_neg hsz, if_pos h3, if_pos hrej]
      · have hrej : ¬decodeRejects bits maxLen := by unfold decodeRejects; tauto
        simp only [decode_bits_to_message, headerVal, payloadText] at *
        rw [if_neg h1, if_neg (by tauto), if_neg hsz, if_neg h3, if_neg hrej]

/-! ## Supporting lemmas: UTF-8 round trip -/

set_option maxRecDepth 8000

theorem utf8Decode_enc1 (c : Nat) (h1 : c < 0x80) (rest : List Nat) :
    utf8DecodeReplace (c :: rest) = c :: utf8DecodeReplace rest := by
  rw [utf8DecodeReplace.eq_def]
  dsimp only
  rw [if_pos (by omega)]

theorem utf8Decode_enc2 (c : Nat) (h1 : 0x80 ≤ c) (h2 : c < 0x800) (rest : List Nat) :
    utf8DecodeReplace ((0xC0 + c / 64) :: (0x80 + c % 64) :: rest) =
      c :: utf8DecodeReplace rest := by
  have hd1 : 2 ≤ c / 64 := by omega
  have hd2 : c / 64 ≤ 31 := by omega
  rw [utf8DecodeReplace.eq_def]
  dsimp only
  rw [if_neg (by omega), if_neg (by omega), if_pos (by omega)]
  rw [if_pos (by simp [isCont]; omega)]
  congr 1
  omega

theorem utf8Decode_enc3 (c : Nat) (h1 : 0x800 ≤ c) (h2 : c < 0x10000)
    (hs : c < 0xD800 ∨ 0xE000 ≤ c) (rest : List Nat) :
    utf8DecodeReplace ((0xE0 + c / 4096) :: (0x80 + c / 64 % 64) :: (0x80 + c % 64) :: rest) =
      c :: utf8DecodeReplace rest := by
  have hd1 : c / 4096 ≤ 15 := by omega
  have hso : utf8SecondOk (0xE0 + c / 4096) (0x80 + c / 64 % 64) = true := by
    simp only [utf8SecondOk, isCont]
    split_ifs with ha hb hc hd <;> simp <;> omega
  rw [utf8DecodeReplace.eq_def]
  dsimp only
  rw [if_neg (by omega), if_neg (by omega), if_neg (by omega), if_pos (by omega)]
  rw [if_pos hso, if_pos (by simp [isCont]; omega)]
  congr 1
  omega

theorem utf8Decode_enc4 (c : Nat) (h1 : 0x10000 ≤ c) (h2 : c < 0x110000) (rest : List Nat) :
    utf8DecodeReplace ((0xF0 + c / 262144) :: (0x80 + c / 4096 % 64) ::
        (0x80 + c / 64 % 64) :: (0x80 + c % 64) :: rest) =
      c :: utf8DecodeReplace rest := by
  have hd1 : c / 262144 ≤ 4 := by omega
  have hso : utf8SecondOk (0xF0 + c / 262144) (0x80 + c / 4096 % 64) = true := by
    simp only [utf8SecondOk, isCont]
    split_ifs with ha hb hc hd <;> simp <;> omega
  rw [utf8DecodeReplace.eq_def]
  dsimp only
  rw [if_neg (by omega), if_neg (by omega), if_neg (by omega), if_neg (by omega),
    if_pos (by omega)]
  rw [if_pos hso, if_pos (by simp [isCont]; omega), if_pos (by simp [isCont]; omega)]
  congr 1
  omega

/-- Decoding the UTF-8 encoding of one scalar value in front of any byte tail
recovers the scalar and continues with the tail. -/
theorem utf8DecodeReplace_encodeChar (c : Nat) (hc : validScalar c) (rest : List Nat) :
    utf8DecodeReplace (utf8EncodeChar c ++ rest) = c :: utf8DecodeReplace rest := by
  have hc' : c < 0x110000 := by rcases hc with h | h <;> omega
  by_cases h1 : c < 0x80
  · simp only [utf8EncodeChar, if_pos h1, List.cons_append, List.nil_append]
    exact utf8Decode_enc1 c h1 rest
  · by_cases h2 : c < 0x800
    · simp only [utf8EncodeChar, if_neg h1, if_pos h2, List.cons_append, List.nil_append]
      exact utf8Decode_enc2 c (by omega) h2 rest
    · by_cases h3 : c < 0x10000
      · simp only [utf8EncodeChar, if_neg h1, if_neg h2, if_pos h3, List.cons_append,
          List.nil_append]
        refine utf8Decode_enc3 c (by omega) h3 ?_ rest
        rcases hc with h | h
        · exact Or.inl h
        · exact Or.inr h.1
      · simp only [utf8EncodeChar, if_neg h1, if_neg h2, if_neg h3, List.cons_append,
          List.nil_append]
        exact utf8Decode_enc4 c (by omega) hc' rest

/-- Lossy UTF-8 decoding inverts UTF-8 encoding on valid scalar messages. -/
theorem utf8DecodeReplace_utf8Encode (msg : List Nat) (hv : ∀ c ∈ msg, validScalar c) :
    utf8DecodeReplace (utf8Encode msg) = msg := by
  induction msg with
  | nil => rfl
  | cons c cs ih =>
    rw [utf8Encode, List.flatMap_cons,
      utf8DecodeReplace_encodeChar c (hv c (List.mem_cons_self c cs))]
    rw [show cs.flatMap utf8EncodeChar = utf8Encode cs from rfl,
      ih (fun x hx => hv x (List.mem_cons_of_mem c hx))]

theorem utf8EncodeChar_lt_256 (c : Nat) (h : c < 0x110000) :
    ∀ b ∈ utf8EncodeChar c, b < 256 := by
  intro b hb
  unfold utf8EncodeChar at hb
  split_ifs at hb <;> simp at hb <;> omega

theorem utf8Encode_lt_256 (msg : List Nat) (hv : ∀ c ∈ msg, validScalar c) :
    ∀ b ∈ utf8Encode msg, b < 256 := by
  intro b hb
  rw [utf8Encode, List.mem_flatMap] at hb
  obtain ⟨c, hcm, hbc⟩ := hb
  have : c < 0x110000 := by rcases hv c hcm with h | h <;> omega
  exact utf8EncodeChar_lt_256 c this b hbc

theorem utf8EncodeChar_ne_nil (c : Nat) : utf8EncodeChar c ≠ [] := by
  unfold utf8EncodeChar
  split_ifs <;> simp

theorem utf8Encode_eq_nil_iff (msg : List Nat) : utf8Encode msg = [] ↔ msg = [] := by
  cases msg with
  | nil => simp [utf8Encode]
  | cons c cs =>
    simp only [utf8Encode, List.flatMap_cons]
    constructor
    · intro h
      rcases List.append_eq_nil.mp h with ⟨h1, _⟩
      exact absurd h1 (utf8EncodeChar_ne_nil c)
    · intro h
      exact absurd h (by simp)

/-! ## Supporting lemmas: encode / decode round trip -/

/-- The two `_encode_message_to_bits` implementations agree. -/
theorem video_encode_eq_audio_encode (message : List Nat) :
    video_encode_message_to_bits message = audio_encode_message_to_bits message := by
  unfold video_encode_message_to_bits audio_encode_message_to_bits
  refine List.flatMap_congr ?_
  intro b _
  exact videoByteBits_eq_audioByteBits b

theorem audio_encode_split (message : List Nat) :
    audio_encode_message_to_bits message =
      (toBytesBE4 (utf8Encode message).length).flatMap audioByteBits ++
        (utf8Encode message).flatMap audioByteBits := by
  unfold audio_encode_message_to_bits
  rw [List.flatMap_append]

theorem header_flatMap_length (n : Nat) :
    ((toBytesBE4 n).flatMap audioByteBits).length = 32 := rfl

theorem audio_encode_length (message : List Nat) :
    (audio_encode_message_to_bits message).length = 32 + 8 * (utf8Encode message).length := by
  rw [audio_encode_split, List.length_append, header_flatMap_length,
    flatMap_audioByteBits_length]

/-- Decoding an encoded non-whitespace message, followed by arbitrary residual
carrier bits, recovers exactly the message. -/
theorem decode_of_encode (message : List Nat) (rest : List Bool) (maxLen : Nat)
    (hv : ∀ c ∈ message, validScalar c)
    (hstrip : pyStrip message ≠ [])
    (hlen : (utf8Encode message).length ≤ maxLen)
    (h32 : (utf8Encode message).length < 4294967296) :
    decode_bits_to_message (audio_encode_message_to_bits message ++ rest) maxLen =
      some message := by
  have hmne : message ≠ [] := by
    intro h
    exact hstrip (by rw [h]; rfl)
  have hbne : (utf8Encode message).length ≠ 0 := by
    intro h
    exact hmne ((utf8Encode_eq_nil_iff message).mp (List.length_eq_zero.mp h))
  have hb256 := utf8Encode_lt_256 message hv
  have hsplit := audio_encode_split message
  set hb := (toBytesBE4 (utf8Encode message).length).flatMap audioByteBits with hhb
  set mb := (utf8Encode message).flatMap audioByteBits with hmb
  have hassoc : audio_encode_message_to_bits message ++ rest = hb ++ (mb ++ rest) := by
    rw [hsplit, List.append_assoc]
  have hhblen : hb.length = 32 := header_flatMap_length _
  have hmblen : mb.length = 8 * (utf8Encode message).length :=
    flatMap_audioByteBits_length _
  have htake : (hb ++ (mb ++ rest)).take 32 = hb := List.take_left' hhblen
  have hdrop : (hb ++ (mb ++ rest)).drop 32 = mb ++ rest := List.drop_left' hhblen
  have hheader : headerVal (hb ++ (mb ++ rest)) = (utf8Encode message).length := by
    rw [headerVal, htake, hhb, bitsToNatMSB_header _ h32]
  have htake2 : (mb ++ rest).take ((utf8Encode message).length * 8) = mb :=
    List.take_left' (by omega)
  have hpayload : payloadText (hb ++ (mb ++ rest)) = message := by
    rw [payloadText, hheader, hdrop, htake2, hmb, bitsToBytesMSB_flatMap _ hb256,
      utf8DecodeReplace_utf8Encode _ hv]
  have hlength : (hb ++ (mb ++ rest)).length = 32 + 8 * (utf8Encode message).length +
      rest.length := by
    simp [List.length_append, hhblen, hmblen]
    omega
  have hrej : ¬decodeRejects (hb ++ (mb ++ rest)) maxLen := by
    unfold decodeRejects
    rw [hheader, hpayload, hlength]
    push_neg
    refine ⟨by omega, hbne, hlen, ?_, hstrip⟩
    rw [Nat.le_div_iff_mul_le (by omega)]
    omega
  rw [hassoc, decode_eq_spec, if_neg hrej, hpayload]

/-- The header and payload the decoder sees on an encoded message followed by
arbitrary residual bits. -/
theorem payload_of_encode (message : List Nat) (rest : List Bool)
    (hv : ∀ c ∈ message, validScalar c)
    (h32 : (utf8Encode message).length < 4294967296) :
    headerVal (audio_encode_message_to_bits message ++ rest) = (utf8Encode message).length ∧
    payloadText (audio_encode_message_to_bits message ++ rest) = message := by
  have hb256 := utf8Encode_lt_256 message hv
  have hsplit := audio_encode_split message
  set hb := (toBytesBE4 (utf8Encode message).length).flatMap audioByteBits with hhb
  set mb := (utf8Encode message).flatMap audioByteBits with hmb
  have hassoc : audio_encode_message_to_bits message ++ rest = hb ++ (mb ++ rest) := by
    rw [hsplit, List.append_assoc]
  have hhblen : hb.length = 32 := header_flatMap_length _
  have hmblen : mb.length = 8 * (utf8Encode message).length :=
    flatMap_audioByteBits_length _
  have htake : (hb ++ (mb ++ rest)).take 32 = hb := List.take_left' hhblen
  have hdrop : (hb ++ (mb ++ rest)).drop 32 = mb ++ rest := List.drop_left' hhblen
  have hheader : headerVal (hb ++ (mb ++ rest)) = (utf8Encode message).length := by
    rw [headerVal, htake, hhb, bitsToNatMSB_header _ h32]
  have htake2 : (mb ++ rest).take ((utf8Encode message).length * 8) = mb :=
    List.take_left' (by omega)
  refine ⟨by rw [hassoc, hheader], ?_⟩
  rw [hassoc, payloadText, hheader, hdrop, htake2, hmb, bitsToBytesMSB_flatMap _ hb256,
    utf8DecodeReplace_utf8Encode _ hv]

/-- If a string strips to empty, all its characters are whitespace. -/
theorem pyStrip_eq_nil_all_space (s : List Nat) (h : pyStrip s = []) :
    ∀ c ∈ s, pyIsSpace c = true := by
  intro c hc
  have h1 : (s.dropWhile pyIsSpace).reverse.dropWhile pyIsSpace = [] := by
    have := congrArg List.reverse h
    simpa [pyStrip] using this
  have h2 : ∀ x ∈ (s.dropWhile pyIsSpace).reverse, pyIsSpace x = true :=
    fun x hx => List.dropWhile_eq_nil_iff.mp h1 x hx
  have h3 : ∀ x ∈ s.dropWhile pyIsSpace, pyIsSpace x = true :=
    fun x hx => h2 x (List.mem_reverse.mpr hx)
  have h4 : ∀ x ∈ s.takeWhile pyIsSpace, pyIsSpace x = true :=
    fun x hx => List.mem_takeWhile_imp hx
  have h5 : c ∈ s.takeWhile pyIsSpace ++ s.dropWhile pyIsSpace := by
    rw [List.takeWhile_append_dropWhile]
    exact hc
  rcases List.mem_append.mp h5 with h | h
  · exact h4 c h
  · exact h3 c h

/-- Whitespace code points are valid scalar values. -/
theorem pyIsSpace_validScalar (c : Nat) (h : pyIsSpace c = true) : validScalar c := by
  unfold pyIsSpace at h
  unfold validScalar
  simp only [decide_eq_true_eq] at h
  omega

/-- Whitespace-only messages decode to absent: the empty message fails the
zero-header check and any other whitespace-only message fails the strip
check. -/
theorem decode_encode_whitespace (message : List Nat) (maxLen : Nat)
    (h32 : (utf8Encode message).length < 4294967296)
    (hws : pyStrip message = []) :
    decode_bits_to_message (audio_encode_message_to_bits message) maxLen = none := by
  have hv : ∀ c ∈ message, validScalar c := fun c hc =>
    pyIsSpace_validScalar c (pyStrip_eq_nil_all_space message hws c hc)
  have hp := payload_of_encode message [] hv h32
  rw [List.append_nil] at hp
  rw [decode_eq_spec]
  rw [if_pos ?hrej]
  case hrej =>
    unfold decodeRejects
    by_cases hz : (utf8Encode message).length = 0
    · exact Or.inr (Or.inl (by rw [hp.1, hz]))
    · refine Or.inr (Or.inr (Or.inr (Or.inr ?_)))
      rw [hp.2, hws]

/-! ## Supporting lemmas: LSB embedding -/

theorem lsbInt_setLSBInt (x : Int) (b : Bool) : lsbInt (setLSBInt x b) = b := by
  cases b <;> simp [lsbInt, setLSBInt, bitVal] <;> omega

theorem embedBitsIntoSamples_length (samples : List Int) (bits : List Bool) :
    (embedBitsIntoSamples samples bits).length = samples.length := by
  induction samples generalizing bits with
  | nil => cases bits <;> rfl
  | cons s ss ih => cases bits with
    | nil => rfl
    | cons b bs => simp [embedBitsIntoSamples, ih]

theorem embedBitsIntoSamples_map_lsb (samples : List Int) (bits : List Bool)
    (h : bits.length ≤ samples.length) :
    (embedBitsIntoSamples samples bits).map lsbInt =
      bits ++ (samples.drop bits.length).map lsbInt := by
  induction bits generalizing samples with
  | nil => cases samples <;> simp [embedBitsIntoSamples]
  | cons b bs ih =>
    cases samples with
    | nil => simp at h
    | cons s ss =>
      simp only [embedBitsIntoSamples, List.map_cons, List.length_cons, List.drop_succ_cons,
        List.cons_append]
      rw [lsbInt_setLSBInt, ih ss (by simpa using h)]

theorem embedBitsIntoSamples_getElem (samples : List Int) (bits : List Bool) (i : Nat) :
    (embedBitsIntoSamples samples bits)[i]? =
      if i < bits.length then (samples[i]?).map (fun x => setLSBInt x (bits.getD i false))
      else samples[i]? := by
  induction samples generalizing bits i with
  | nil =>
    cases bits with
    | nil => simp [embedBitsIntoSamples]
    | cons b bs => simp [embedBitsIntoSamples]
  | cons s ss ih =>
    cases bits with
    | nil => simp [embedBitsIntoSamples]
    | cons b bs =>
      cases i with
      | zero => simp [embedBitsIntoSamples]
      | succ j =>
        simp only [embedBitsIntoSamples, List.getElem?_cons_succ, List.length_cons,
          Nat.succ_lt_succ_iff, List.getD_cons_succ]
        exact ih bs j

theorem lsbByte_setLSBByte (x : Nat) (b : Bool) : lsbByte (setLSBByte x b) = b := by
  cases b <;> simp [lsbByte, setLSBByte, bitVal] <;> omega

theorem embedBitsIntoBytes_length (xs : List Nat) (bits : List Bool) :
    (embedBitsIntoBytes xs bits).length = xs.length := by
  induction xs generalizing bits with
  | nil => cases bits <;> rfl
  | cons x xs ih => cases bits with
    | nil => rfl
    | cons b bs => simp [embedBitsIntoBytes, ih]

theorem embedBitsIntoBytes_map_lsb (xs : List Nat) (bits : List Bool)
    (h : bits.length ≤ xs.length) :
    (embedBitsIntoBytes xs bits).map lsbByte =
      bits ++ (xs.drop bits.length).map lsbByte := by
  induction bits generalizing xs with
  | nil => cases xs <;> simp [embedBitsIntoBytes]
  | cons b bs ih =>
    cases xs with
    | nil => simp at h
    | cons x xs =>
      simp only [embedBitsIntoBytes, List.map_cons, List.length_cons, List.drop_succ_cons,
        List.cons_append]
      rw [lsbByte_setLSBByte, ih xs (by simpa using h)]

theorem splitSizes_length (flat : List Nat) (sizes : List Nat) :
    (splitSizes flat sizes).length = sizes.length := by
  induction sizes generalizing flat with
  | nil => rfl
  | cons n rest ih => simp [splitSizes, ih]

theorem flatten_splitSizes (flat : List Nat) (sizes : List Nat)
    (h : sizes.sum = flat.length) :
    (splitSizes flat sizes).flatten = flat := by
  induction sizes generalizing flat with
  | nil =>
    simp only [List.sum_nil] at h
    have hf : flat = [] := List.length_eq_zero.mp h.symm
    subst hf
    rfl
  | cons n rest ih =>
    simp only [List.sum_cons] at h
    simp only [splitSizes, List.flatten_cons]
    rw [ih (flat.drop n) (by rw [List.length_drop]; omega)]
    exact List.take_append_drop n flat

theorem flatMap_map_lsbByte (frames : List (List Nat)) :
    frames.flatMap (fun f => f.map lsbByte) = frames.flatten.map lsbByte := by
  induction frames with
  | nil => rfl
  | cons f fs ih => simp [List.flatMap_cons, List.flatten_cons, ih]

theorem frames_map_length_sum (frames : List (List Nat)) :
    (frames.map List.length).sum = frames.flatten.length := by
  induction frames with
  | nil => rfl
  | cons f fs ih =>
    simp only [List.map_cons, List.sum_cons, List.flatten_cons, List.length_append, ih]

/-! ## Supporting lemmas: extract after embed -/

theorem embed_lsb_audio_ok (cover : AudioData) (message : List Nat)
    (hcap : (audio_encode_message_to_bits message).length ≤ cover.samples.length) :
    embed_lsb_audio cover message =
      Except.ok { samples := embedBitsIntoSamples cover.samples
                    (audio_encode_message_to_bits message),
                  channels := cover.channels, sampleRate := cover.sampleRate } := by
  simp only [embed_lsb_audio]
  rw [if_neg (by omega)]

theorem extract_embed_audio (cover : AudioData) (message : List Nat)
    (hv : ∀ c ∈ message, validScalar c)
    (hstrip : pyStrip message ≠ [])
    (hlen : (utf8Encode message).length ≤ 100000)
    (hcap : (audio_encode_message_to_bits message).length ≤ cover.samples.length) :
    (embed_lsb_audio cover message).map extract_lsb_audio = Except.ok message := by
  rw [embed_lsb_audio_ok cover message hcap]
  simp only [Except.map]
  simp only [extract_lsb_audio]
  rw [embedBitsIntoSamples_map_lsb cover.samples _ hcap,
    decode_of_encode message _ 100000 hv hstrip hlen (by omega)]

theorem embed_lsb_video_ok (frames : List (List Nat)) (message : List Nat)
    (hne : frames ≠ [])
    (hcap : (video_encode_message_to_bits message).length ≤ frames.flatten.length) :
    embed_lsb_video frames message =
      Except.ok (splitSizes (embedBitsIntoBytes frames.flatten
        (video_encode_message_to_bits message)) (frames.map List.length)) := by
  simp only [embed_lsb_video]
  rw [if_neg (by simp [List.isEmpty_iff, hne]), if_neg (by omega)]

theorem extract_embed_video (frames : List (List Nat)) (message : List Nat)
    (hv : ∀ c ∈ message, validScalar c)
    (hstrip : pyStrip message ≠ [])
    (hlen : (utf8Encode message).length ≤ 200000)
    (hne : frames ≠ [])
    (hcap : (video_encode_message_to_bits message).length ≤ frames.flatten.length) :
    (embed_lsb_video frames message).map extract_lsb_video = Except.ok message := by
  rw [embed_lsb_video_ok frames message hne hcap]
  simp only [Except.map]
  have hsplitne : ¬(splitSizes (embedBitsIntoBytes frames.flatten
      (video_encode_message_to_bits message)) (frames.map List.length)).isEmpty = true := by
    rw [List.isEmpty_iff_length_eq_zero, splitSizes_length, List.length_map]
    intro h
    exact hne (List.length_eq_zero.mp h)
  simp only [extract_lsb_video]
  rw [if_neg hsplitne, flatMap_map_lsbByte,
    flatten_splitSizes _ _ (by rw [frames_map_length_sum, embedBitsIntoBytes_length]),
    embedBitsIntoBytes_map_lsb _ _ hcap, video_encode_eq_audio_encode,
    decode_of_encode message _ 200000 hv hstrip hlen (by omega)]

/-! ## Supporting lemmas: the steganalysis combination loop and balance -/

theorem combineBest_pair (r1 r2 : MethodResult) :
    combineBest [r1, r2] =
      match r1.score, r2.score with
      | none, none => (none, none)
      | some s1, none => (some s1, some r1.method)
      | none, some s2 => (some s2, some r2.method)
      | some s1, some s2 =>
        if s1 < s2 then (some s2, some r2.method) else (some s1, some r1.method) := by
  rcases h1 : r1.score with _ | s1 <;> rcases h2 : r2.score with _ | s2 <;>
    simp [combineBest, combineStep, h1, h2]

theorem mem_pair_iff (r r1 r2 : MethodResult) : r ∈ [r1, r2] ↔ r = r1 ∨ r = r2 := by
  simp

/-- The combination loop satisfies the spec's best-method contract on the
two-method result lists that `analyze_audio` / `analyze_video` build. -/
theorem overviewSpec_pair (r1 r2 : MethodResult) :
    overviewSpec { best_score := (combineBest [r1, r2]).1,
                   best_method := (combineBest [r1, r2]).2, methods := [r1, r2] } := by
  rcases h1 : r1.score with _ | s1 <;> rcases h2 : r2.score with _ | s2
  · have hpair : combineBest [r1, r2] = (none, none) := by
      rw [combineBest_pair, h1, h2]
    rw [hpair]
    refine ⟨fun _ => ⟨rfl, rfl⟩, ?_, ?_⟩
    · intro r hr s hs
      rcases (mem_pair_iff r r1 r2).mp hr with h | h <;> subst h <;> simp_all
    · intro b hb
      exact absurd hb (by simp)
  · have hpair : combineBest [r1, r2] = (some s2, some r2.method) := by
      rw [combineBest_pair, h1, h2]
    rw [hpair]
    refine ⟨?_, ?_, ?_⟩
    · intro hall
      exact absurd (hall r2 (by simp)) (by simp [h2])
    · intro r hr s hs
      rcases (mem_pair_iff r r1 r2).mp hr with h | h <;> subst h
      · simp_all
      · rw [h2] at hs
        obtain rfl : s2 = s := Option.some.inj hs
        exact ⟨s2, rfl, le_refl s2⟩
    · intro b hb
      obtain rfl : s2 = b := Option.some.inj hb
      refine ⟨r2, ?_, rfl, h2⟩
      rw [List.find?_cons_of_neg _ (by simp [h1]), List.find?_cons_of_pos _ (by simp [h2])]
  · have hpair : combineBest [r1, r2] = (some s1, some r1.method) := by
      rw [combineBest_pair, h1, h2]
    rw [hpair]
    refine ⟨?_, ?_, ?_⟩
    · intro hall
      exact absurd (hall r1 (by simp)) (by simp [h1])
    · intro r hr s hs
      rcases (mem_pair_iff r r1 r2).mp hr with h | h <;> subst h
      · rw [h1] at hs
        obtain rfl : s1 = s := Option.some.inj hs
        exact ⟨s1, rfl, le_refl s1⟩
      · simp_all
    · intro b hb
      obtain rfl : s1 = b := Option.some.inj hb
      refine ⟨r1, ?_, rfl, h1⟩
      rw [List.find?_cons_of_pos _ (by simp [h1])]
  · by_cases hlt : s1 < s2
    · have hpair : combineBest [r1, r2] = (some s2, some r2.method) := by
        rw [combineBest_pair, h1, h2]
        exact if_pos hlt
      rw [hpair]
      refine ⟨?_, ?_, ?_⟩
      · intro hall
        exact absurd (hall r1 (by simp)) (by simp [h1])
      · intro r hr s hs
        rcases (mem_pair_iff r r1 r2).mp hr with h | h <;> subst h
        · rw [h1] at hs
          obtain rfl : s1 = s := Option.some.inj hs
          exact ⟨s2, rfl, le_of_lt hlt⟩
        · rw [h2] at hs
          obtain rfl : s2 = s := Option.some.inj hs
          exact ⟨s2, rfl, le_refl s2⟩
      · intro b hb
        obtain rfl : s2 = b := Option.some.inj hb
        refine ⟨r2, ?_, rfl, h2⟩
        rw [List.find?_cons_of_neg _ (by simp [h1]; exact ne_of_lt hlt),
          List.find?_cons_of_pos _ (by simp [h2])]
    · have hpair : combineBest [r1, r2] = (some s1, some r1.method) := by
        rw [combineBest_pair, h1, h2]
        exact if_neg hlt
      rw [hpair]
      refine ⟨?_, ?_, ?_⟩
      · intro hall
        exact absurd (hall r1 (by simp)) (by simp [h1])
      · intro r hr s hs
        rcases (mem_pair_iff r r1 r2).mp hr with h | h <;> subst h
        · rw [h1] at hs
          obtain rfl : s1 = s := Option.some.inj hs
          exact ⟨s1, rfl, le_refl s1⟩
        · rw [h2] at hs
          obtain rfl : s2 = s := Option.some.inj hs
          exact ⟨s1, rfl, le_of_not_lt hlt⟩
      · intro b hb
        obtain rfl : s1 = b := Option.some.inj hb
        refine ⟨r1, ?_, rfl, h1⟩
        rw [List.find?_cons_of_pos _ (by simp [h1])]

/-- Arithmetic facts about the balance statistic `1 - |p1 - 0.5| * 2`
for a fraction `p` within `[0, 1]`. -/
theorem balance_props (p : ℚ) (h0 : 0 ≤ p) (h1 : p ≤ 1) :
    0 ≤ 1 - |p - 1/2| * 2 ∧ 1 - |p - 1/2| * 2 ≤ 1 ∧
    (p = 1/2 ↔ 1 - |p - 1/2| * 2 = 1) ∧
    ((p = 0 ∨ p = 1) → 1 - |p - 1/2| * 2 = 0) := by
  have habs : |p - 1/2| ≤ 1/2 := abs_le.mpr ⟨by linarith, by linarith⟩
  have habs0 : (0 : ℚ) ≤ |p - 1/2| := abs_nonneg _
  refine ⟨by linarith, by linarith, ⟨fun h => ?_, fun h => ?_⟩, ?_⟩
  · rw [h]
    norm_num
  · have hz : |p - 1/2| = 0 := by linarith
    have := abs_eq_zero.mp hz
    linarith
  · rintro (h | h) <;> subst h
    · rw [show (0 : ℚ) - 1/2 = -(1/2) by ring, abs_neg, abs_of_nonneg (by norm_num)]
      norm_num
    · rw [show (1 : ℚ) - 1/2 = 1/2 by ring, abs_of_nonneg (by norm_num)]
      norm_num

/-! ## Claims -/

/-- **C1** (counterexample): the round trip fails as stated for the one-space
message `" "`: its 40 encoded bits fit a 40-sample mono carrier and embedding
succeeds, but extraction returns the no-payload sentinel, not `" "`, because
the decoder rejects whitespace-only text. -/
theorem claim_C1_counterexample :
    (embed_lsb_audio silentCover40 [32]).map extract_lsb_audio =
      Except.ok audioNoPayloadSentinel ∧ audioNoPayloadSentinel ≠ [32] := by
  refine ⟨by rfl, by decide⟩

/-- **C1** (amended): for every UTF-8 message that is not empty or
whitespace-only and whose byte length is within the decoder's cap
(100 000 bytes for audio, 200 000 for video), if the encoded bit length
(32 header bits + 8 bits per UTF-8 byte) is at most the carrier's capacity,
then extracting from the carrier produced by embedding returns exactly the
message — for the audio codec and, on carriers with at least one frame, for
the video codec.  In particular this covers embedding `"HELLO"` (72 bits)
into a mono 16-bit PCM carrier with at least 72 samples (see the witness). -/
theorem claim_C1_roundtrip (message : List Nat) (cover : AudioData)
    (frames : List (List Nat))
    (hv : ∀ c ∈ message, validScalar c)
    (hstrip : pyStrip message ≠ [])
    (hlenA : (utf8Encode message).length ≤ 100000)
    (hcapA : (audio_encode_message_to_bits message).length ≤ cover.samples.length)
    (hlenV : (utf8Encode message).length ≤ 200000)
    (hfr : frames ≠ [])
    (hcapV : (video_encode_message_to_bits message).length ≤ frames.flatten.length) :
    (embed_lsb_audio cover message).map extract_lsb_audio = Except.ok message ∧
    (embed_lsb_video frames message).map extract_lsb_video = Except.ok message :=
  ⟨extract_embed_audio cover message hv hstrip hlenA hcapA,
   extract_embed_video frames message hv hstrip hlenV hfr hcapV⟩

/-- **C1** witness: the concrete `"HELLO"` scenario, for a 72-sample mono
audio carrier and a one-frame 72-byte video carrier. -/
theorem claim_C1_roundtrip_witness :
    (embed_lsb_audio silentCover72 helloMessage).map extract_lsb_audio =
      Except.ok helloMessage ∧
    (embed_lsb_video blackFrames72 helloMessage).map extract_lsb_video =
      Except.ok helloMessage :=
  claim_C1_roundtrip helloMessage silentCover72 blackFrames72
    (by decide) (by decide) (by decide) (by decide) (by decide) (by decide) (by decide)

/-- **C3**: the decoder (audio instance `max_len_bytes = 100000`, video
instance `200000`) returns absent exactly when the sequence has fewer than 32
bits, or the big-endian 32-bit header `L` is 0, or `L` exceeds the byte cap,
or `L` exceeds the remaining bits divided by 8, or the recovered, lossily
UTF-8-decoded text is empty or whitespace-only; otherwise it returns that
text. -/
theorem claim_C3_decode_rejects (bits : List Bool) :
    (decode_bits_to_message bits 100000 = none ↔ decodeRejects bits 100000) ∧
    (decode_bits_to_message bits 200000 = none ↔ decodeRejects bits 200000) ∧
    (¬decodeRejects bits 100000 →
      decode_bits_to_message bits 100000 = some (payloadText bits)) ∧
    (¬decodeRejects bits 200000 →
      decode_bits_to_message bits 200000 = some (payloadText bits)) := by
  refine ⟨?_, ?_, fun h => ?_, fun h => ?_⟩ <;> rw [decode_eq_spec]
  · split_ifs with h <;> simp [h]
  · split_ifs with h <;> simp [h]
  · rw [if_neg h]
  · rw [if_neg h]

/-- **C3** witness: the encoded `"HELLO"` bitstream is not rejected and
decodes to its payload text. -/
theorem claim_C3_decode_rejects_witness :
    decode_bits_to_message (audio_encode_message_to_bits helloMessage) 100000 =
      some (payloadText (audio_encode_message_to_bits helloMessage)) :=
  (claim_C3_decode_rejects (audio_encode_message_to_bits helloMessage)).2.2.1 (by decide)

/-- **C8**: the audio and the video `_encode_message_to_bits` produce the
identical bit sequence for every message, and both equal the reference wire
format — 4-byte big-endian UTF-8 byte length, then the UTF-8 bytes, each
expanded MSB-first.  (Messages of `≥ 2^32` UTF-8 bytes make Python's
`to_bytes(4, "big")` raise in both implementations alike, so the bound is a
hypothesis.) -/
theorem claim_C8_wire_format (message : List Nat)
    (_h32 : (utf8Encode message).length < 4294967296) :
    audio_encode_message_to_bits message = video_encode_message_to_bits message ∧
    audio_encode_message_to_bits message = wireFormatBits (utf8Encode message) := by
  refine ⟨(video_encode_eq_audio_encode message).symm, ?_⟩
  unfold audio_encode_message_to_bits wireFormatBits
  refine List.flatMap_congr ?_
  intro b _
  exact (wireByteBits_eq_audioByteBits b).symm

/-- **C8** witness: both encoders and the wire format agree on `"HELLO"`. -/
theorem claim_C8_wire_format_witness :
    audio_encode_message_to_bits helloMessage = video_encode_message_to_bits helloMessage ∧
    audio_encode_message_to_bits helloMessage = wireFormatBits (utf8Encode helloMessage) :=
  claim_C8_wire_format helloMessage (by decide)

/-- **C10**: both encoders accept the empty message (exactly 32 zero bits, a
header with `L = 0`) and whitespace-only messages, but decoding the encoded
bitstream of any empty or whitespace-only message returns absent — under
either codec's byte cap — so such messages do not round-trip. -/
theorem claim_C10_whitespace (message : List Nat)
    (h32 : (utf8Encode message).length < 4294967296)
    (hws : pyStrip message = []) :
    audio_encode_message_to_bits [] = List.replicate 32 false ∧
    video_encode_message_to_bits [] = List.replicate 32 false ∧
    decode_bits_to_message (audio_encode_message_to_bits message) 100000 = none ∧
    decode_bits_to_message (video_encode_message_to_bits message) 200000 = none := by
  refine ⟨by decide, by decide, decode_encode_whitespace message 100000 h32 hws, ?_⟩
  rw [video_encode_eq_audio_encode]
  exact decode_encode_whitespace message 200000 h32 hws

/-- **C10** witness: the one-space message strips to empty and its encoded
bitstream decodes to absent. -/
theorem claim_C10_whitespace_witness :
    audio_encode_message_to_bits [] = List.replicate 32 false ∧
    video_encode_message_to_bits [] = List.replicate 32 false ∧
    decode_bits_to_message (audio_encode_message_to_bits [32]) 100000 = none ∧
    decode_bits_to_message (video_encode_message_to_bits [32]) 200000 = none :=
  claim_C10_whitespace [32] (by decide) (by decide)

/-- **C2** (counterexample): for a video carrier from which no frames were
extracted, an over-capacity message raises the no-frames error, not a
capacity error, so "raises a capacity error whenever the encoded bit length
exceeds capacity" fails on frameless carriers. -/
theorem claim_C2_counterexample :
    embed_lsb_video [] helloMessage = Except.error VideoEmbedError.noFrames ∧
    VideoEmbedError.noFrames.isCapacity = false := ⟨rfl, rfl⟩

/-- **C2** (amended): for messages of fewer than `2^32` UTF-8 bytes (larger
ones make Python's `to_bytes(4, "big")` raise `OverflowError` inside
`_encode_message_to_bits`, before any capacity check, so `toBytesBE4` is a
faithful model only under this bound), embedding succeeds when the encoded
bit length is exactly the carrier's capacity (audio: flattened sample count;
video with at least one extracted frame: total RGB bytes over all frames)
and fails with the capacity error carrying capacity and needed bits as soon
as the encoded length exceeds capacity; the check precedes any modification,
the error carries no output (embed is all-or-nothing).  A frameless video
carrier instead fails with the distinct no-frames error (see the
counterexample). -/
theorem claim_C2_capacity_boundary (cover : AudioData) (frames : List (List Nat))
    (message : List Nat) (hfr : frames ≠ [])
    (_h32 : (utf8Encode message).length < 4294967296) :
    ((audio_encode_message_to_bits message).length = cover.samples.length →
      embed_lsb_audio cover message = Except.ok
        { samples := embedBitsIntoSamples cover.samples
            (audio_encode_message_to_bits message),
          channels := cover.channels, sampleRate := cover.sampleRate }) ∧
    ((audio_encode_message_to_bits message).length > cover.samples.length →
      embed_lsb_audio cover message = Except.error
        (AudioEmbedError.capacity cover.samples.length
          (audio_encode_message_to_bits message).length)) ∧
    ((video_encode_message_to_bits message).length = frames.flatten.length →
      embed_lsb_video frames message = Except.ok
        (splitSizes (embedBitsIntoBytes frames.flatten
          (video_encode_message_to_bits message)) (frames.map List.length))) ∧
    ((video_encode_message_to_bits message).length > frames.flatten.length →
      embed_lsb_video frames message = Except.error
        (VideoEmbedError.capacity frames.flatten.length
          (video_encode_message_to_bits message).length)) := by
  refine ⟨fun h => embed_lsb_audio_ok cover message (by omega), fun h => ?_,
    fun h => embed_lsb_video_ok frames message hfr (by omega), fun h => ?_⟩
  · simp only [embed_lsb_audio]
    rw [if_pos h]
  · simp only [embed_lsb_video]
    rw [if_neg (by simp [List.isEmpty_iff, hfr]), if_pos h]

/-- **C2** witness: `"HELLO"` (72 bits) exactly fills the 72-unit carriers and
embeds; it overflows the 40-unit carriers by 32 bits and raises the capacity
error. -/
theorem claim_C2_capacity_boundary_witness :
    embed_lsb_audio silentCover72 helloMessage = Except.ok stegoHello72 ∧
    embed_lsb_audio silentCover40 helloMessage =
      Except.error (AudioEmbedError.capacity 40 72) ∧
    embed_lsb_video blackFrames72 helloMessage = Except.ok
      (splitSizes (embedBitsIntoBytes blackFrames72.flatten
        (video_encode_message_to_bits helloMessage)) (blackFrames72.map List.length)) ∧
    embed_lsb_video blackFrames40 helloMessage =
      Except.error (VideoEmbedError.capacity 40 72) :=
  ⟨(claim_C2_capacity_boundary silentCover72 blackFrames72 helloMessage
      (by decide) (by decide)).1 (by decide),
   (claim_C2_capacity_boundary silentCover40 blackFrames72 helloMessage
      (by decide) (by decide)).2.1 (by decide),
   (claim_C2_capacity_boundary silentCover72 blackFrames72 helloMessage
      (by decide) (by decide)).2.2.1 (by decide),
   (claim_C2_capacity_boundary silentCover72 blackFrames40 helloMessage
      (by decide) (by decide)).2.2.2 (by decide)⟩

/-- **C4** (counterexample): a video carrier yielding no frames (0 addressable
units, hence fewer than 32) makes `extract_lsb_video` return the distinct
no-frames sentinel, not the fixed no-valid-payload sentinel the claim names. -/
theorem claim_C4_counterexample :
    extract_lsb_video [] = videoNoFramesSentinel ∧
    videoNoFramesSentinel ≠ videoNoPayloadSentinel := ⟨rfl, by decide⟩

/-- **C4** (amended): extraction is total (never raises).  Whenever the
carrier's LSB bitstream has no plausible payload — in particular whenever it
has fewer than 32 addressable units — audio extraction returns the fixed
audio no-payload sentinel, and video extraction on a carrier with at least
one frame returns the fixed video no-payload sentinel; a frameless video
returns the distinct no-frames sentinel.  When the decoder does find a
payload, extraction returns exactly that decoded text, never garbage. -/
theorem claim_C4_absent_safety (stego : AudioData) (frames : List (List Nat)) :
    (decode_bits_to_message (stego.samples.map lsbInt) 100000 = none →
      extract_lsb_audio stego = audioNoPayloadSentinel) ∧
    (stego.samples.length < 32 → extract_lsb_audio stego = audioNoPayloadSentinel) ∧
    (∀ msg, decode_bits_to_message (stego.samples.map lsbInt) 100000 = some msg →
      extract_lsb_audio stego = msg) ∧
    (frames ≠ [] →
      decode_bits_to_message (frames.flatMap (fun f => f.map lsbByte)) 200000 = none →
      extract_lsb_video frames = videoNoPayloadSentinel) ∧
    (frames ≠ [] → frames.flatten.length < 32 →
      extract_lsb_video frames = videoNoPayloadSentinel) ∧
    (∀ msg, frames ≠ [] →
      decode_bits_to_message (frames.flatMap (fun f => f.map lsbByte)) 200000 = some msg →
      extract_lsb_video frames = msg) ∧
    extract_lsb_video [] = videoNoFramesSentinel := by
  have hlenA : (stego.samples.map lsbInt).length = stego.samples.length :=
    List.length_map _ _
  have hlenV : (frames.flatMap (fun f => f.map lsbByte)).length = frames.flatten.length := by
    rw [flatMap_map_lsbByte, List.length_map]
  refine ⟨fun h => ?_, fun h => ?_, fun msg h => ?_, fun hfr h => ?_, fun hfr h => ?_,
    fun msg hfr h => ?_, rfl⟩
  · simp only [extract_lsb_audio]
    rw [h]
  · have hrej : decodeRejects (stego.samples.map lsbInt) 100000 := Or.inl (by omega)
    have hd : decode_bits_to_message (stego.samples.map lsbInt) 100000 = none := by
      rw [decode_eq_spec, if_pos hrej]
    simp only [extract_lsb_audio]
    rw [hd]
  · simp only [extract_lsb_audio]
    rw [h]
  · simp only [extract_lsb_video]
    rw [if_neg (by simp [List.isEmpty_iff, hfr]), h]
  · have hrej : decodeRejects (frames.flatMap (fun f => f.map lsbByte)) 200000 :=
      Or.inl (by omega)
    have hd : decode_bits_to_message (frames.flatMap (fun f => f.map lsbByte)) 200000 =
        none := by
      rw [decode_eq_spec, if_pos hrej]
    simp only [extract_lsb_video]
    rw [if_neg (by simp [List.isEmpty_iff, hfr]), hd]
  · simp only [extract_lsb_video]
    rw [if_neg (by simp [List.isEmpty_iff, hfr]), h]

/-- **C4** witness: an all-zero 40-sample audio carrier and an all-zero
one-frame video carrier (no plausible payload in either) both extract to
their modality's no-payload sentinel. -/
theorem claim_C4_absent_safety_witness :
    extract_lsb_audio silentCover40 = audioNoPayloadSentinel ∧
    extract_lsb_video blackFrames40 = videoNoPayloadSentinel ∧
    extract_lsb_audio stegoHello72 = helloMessage :=
  ⟨(claim_C4_absent_safety silentCover40 blackFrames40).1 (by decide),
   (claim_C4_absent_safety silentCover40 blackFrames40).2.2.2.1 (by decide) (by decide),
   (claim_C4_absent_safety stegoHello72 blackFrames40).2.2.1 helloMessage (by decide)⟩

/-- **C9**: audio embedding with sufficient capacity preserves the channel
count, the sample rate and the sample-list length; the samples at positions
at or beyond the encoded bit length are untouched; each earlier sample has
its least significant bit overwritten with the corresponding payload bit by
clear-then-OR (`setLSBInt`), which leaves its upper 15 bits
(`y - y % 2`, the sample with bit 0 cleared) identical to the cover's. -/
theorem claim_C9_frame_effect (cover : AudioData) (message : List Nat) (stego : AudioData)
    (h : embed_lsb_audio cover message = Except.ok stego) :
    stego.channels = cover.channels ∧ stego.sampleRate = cover.sampleRate ∧
    stego.samples.length = cover.samples.length ∧
    (∀ i, (audio_encode_message_to_bits message).length ≤ i →
      stego.samples[i]? = cover.samples[i]?) ∧
    (∀ i, i < (audio_encode_message_to_bits message).length →
      stego.samples[i]? = (cover.samples[i]?).map
        (fun x => setLSBInt x ((audio_encode_message_to_bits message).getD i false))) ∧
    (∀ i x y, i < (audio_encode_message_to_bits message).length →
      cover.samples[i]? = some x → stego.samples[i]? = some y →
      y - y % 2 = x - x % 2 ∧
      y % 2 = bitVal ((audio_encode_message_to_bits message).getD i false)) := by
  have hcap : ¬(audio_encode_message_to_bits message).length > cover.samples.length := by
    intro hgt
    simp only [embed_lsb_audio] at h
    rw [if_pos hgt] at h
    exact absurd h (by simp)
  rw [embed_lsb_audio_ok cover message (by omega)] at h
  injection h with h2
  subst h2
  refine ⟨rfl, rfl, embedBitsIntoSamples_length _ _, fun i hi => ?_, fun i hi => ?_,
    fun i x y hi hx hy => ?_⟩
  · rw [embedBitsIntoSamples_getElem, if_neg (by omega)]
  · rw [embedBitsIntoSamples_getElem, if_pos hi]
  · rw [embedBitsIntoSamples_getElem, if_pos hi, hx] at hy
    rw [Option.map_some'] at hy
    injection hy with hy2
    subst hy2
    cases hb : (audio_encode_message_to_bits message).getD i false <;>
      constructor <;> simp [setLSBInt, bitVal] <;> omega

/-- **C9** witness: the concrete `"HELLO"` embedding into the 72-sample zero
carrier: sample rate kept, sample 5 (a zero sample receiving payload bit 5)
gets its LSB set accordingly, and there is no sample 72 either side. -/
theorem claim_C9_frame_effect_witness :
    stegoHello72.sampleRate = silentCover72.sampleRate ∧
    stegoHello72.samples.length = silentCover72.samples.length ∧
    stegoHello72.samples[5]? = (silentCover72.samples[5]?).map
      (fun x => setLSBInt x ((audio_encode_message_to_bits helloMessage).getD 5 false)) := by
  have h := claim_C9_frame_effect silentCover72 helloMessage stegoHello72 (by rfl)
  exact ⟨h.2.1, h.2.2.1, h.2.2.2.2.1 5 (by decide)⟩

/-- **C5** (counterexample): with both audio artifacts present but the
scaler's expected dimensionality (31) different from the computed feature
vector's (30), `audio_mfcc_svm` does not return a null score — the unguarded
`scaler.transform` raises, and `analyze_audio` (which has no `try` around it)
propagates the exception, so the statistical method's result is lost too. -/
theorem claim_C5_counterexample :
    audio_mfcc_svm audioEnvDimMismatch =
      Except.error (AudioSvmError.transformRaised 30 31) ∧
    analyze_audio audioEnvDimMismatch [0, 1] =
      Except.error (AudioSvmError.transformRaised 30 31) := ⟨rfl, rfl⟩

/-- **C5** (amended): the video learned method degrades gracefully on all
three artifact failures (missing, unreadable, dimension mismatch), returning
a null score with the self-describing verdict while V1 of the same analysis
call still returns a valid score; the audio learned method degrades
gracefully only when an artifact file is missing (null score, not-trained
verdict, A1 still valid) — an unreadable audio artifact or an audio feature
dimension mismatch raises out of `audio_mfcc_svm` and aborts the whole
`analyze_audio` call. -/
theorem claim_C5_degradation (venv : VideoModelEnv) (aenv : AudioModelEnv)
    (frames : List (List (Nat × Nat × Nat))) (pcm : List Int) :
    (¬(venv.scalerExists && venv.svmExists) →
      (video_frame_svm venv).score = none ∧
      (video_frame_svm venv).verdict = verdictVideoNotTrained) ∧
    ((venv.scalerExists && venv.svmExists) → ¬venv.loadOk →
      (video_frame_svm venv).score = none ∧
      (video_frame_svm venv).verdict = verdictVideoLoadFailed venv.loadErr) ∧
    ((venv.scalerExists && venv.svmExists) → venv.loadOk → venv.featuresOk →
      venv.nFeatures ≠ venv.scalerNFeatures →
      (video_frame_svm venv).score = none ∧
      (video_frame_svm venv).verdict =
        verdictVideoDimMismatch venv.nFeatures venv.scalerNFeatures venv.transformErr) ∧
    ((analyze_video frames venv).methods.head? = some (frame_lsb_statistics frames) ∧
      (frame_lsb_statistics frames).score.isSome = true) ∧
    (¬(aenv.scalerExists && aenv.svmExists) →
      audio_mfcc_svm aenv = Except.ok
        { method := methodA2, score := none, p0 := none, p1 := none,
          verdict := verdictAudioNotTrained } ∧
      ∃ ov, analyze_audio aenv pcm = Except.ok ov ∧
        ov.methods.head? = some (audio_lsb_statistics pcm) ∧
        (audio_lsb_statistics pcm).score.isSome = true) ∧
    ((aenv.scalerExists && aenv.svmExists) → ¬aenv.loadOk →
      analyze_audio aenv pcm = Except.error AudioSvmError.loadRaised) ∧
    ((aenv.scalerExists && aenv.svmExists) → aenv.loadOk → aenv.featuresOk →
      aenv.nFeatures ≠ aenv.scalerNFeatures →
      analyze_audio aenv pcm = Except.error
        (AudioSvmError.transformRaised aenv.nFeatures aenv.scalerNFeatures)) := by
  have hstatA : (audio_lsb_statistics pcm).score.isSome = true := by
    simp only [audio_lsb_statistics]
    split_ifs <;> rfl
  have hstatV : (frame_lsb_statistics frames).score.isSome = true := by
    simp only [frame_lsb_statistics]
    split_ifs <;> rfl
  refine ⟨fun h => ?_, fun h1 h2 => ?_, fun h1 h2 h3 h4 => ?_, ⟨rfl, hstatV⟩,
    fun h => ?_, fun h1 h2 => ?_, fun h1 h2 h3 h4 => ?_⟩
  · have hv : video_frame_svm venv =
        { method := methodV2, score := none, p0 := none, p1 := none,
          verdict := verdictVideoNotTrained } := by
      simp only [video_frame_svm]
      rw [if_pos h]
    rw [hv]
    exact ⟨rfl, rfl⟩
  · have hv : video_frame_svm venv =
        { method := methodV2, score := none, p0 := none, p1 := none,
          verdict := verdictVideoLoadFailed venv.loadErr } := by
      simp only [video_frame_svm]
      rw [if_neg (not_not_intro h1), if_pos h2]
    rw [hv]
    exact ⟨rfl, rfl⟩
  · have hv : video_frame_svm venv =
        { method := methodV2, score := none, p0 := none, p1 := none,
          verdict := verdictVideoDimMismatch venv.nFeatures venv.scalerNFeatures
            venv.transformErr } := by
      simp only [video_frame_svm]
      rw [if_neg (not_not_intro h1), if_neg (not_not_intro h2),
        if_neg (not_not_intro h3), if_pos h4]
    rw [hv]
    exact ⟨rfl, rfl⟩
  · have ha : audio_mfcc_svm aenv = Except.ok
        { method := methodA2, score := none, p0 := none, p1 := none,
          verdict := verdictAudioNotTrained } := by
      simp only [audio_mfcc_svm]
      rw [if_pos h]
    refine ⟨ha, ?_⟩
    rw [analyze_audio, ha]
    exact ⟨_, rfl, rfl, hstatA⟩
  · have ha : audio_mfcc_svm aenv = Except.error AudioSvmError.loadRaised := by
      simp only [audio_mfcc_svm]
      rw [if_neg (not_not_intro h1), if_pos h2]
    rw [analyze_audio, ha]
  · have ha : audio_mfcc_svm aenv = Except.error
        (AudioSvmError.transformRaised aenv.nFeatures aenv.scalerNFeatures) := by
      simp only [audio_mfcc_svm]
      rw [if_neg (not_not_intro h1), if_neg (not_not_intro h2),
        if_neg (not_not_intro h3), if_pos h4]
    rw [analyze_audio, ha]

/-- **C5** witness: concrete environments — the mismatched video environment
degrades to a null score with the dimension-mismatch verdict while V1 still
scores; the missing audio environment degrades to the not-trained verdict
with A1 intact. -/
theorem claim_C5_degradation_witness :
    ((video_frame_svm videoEnvDimMismatch).score = none ∧
      (video_frame_svm videoEnvDimMismatch).verdict =
        verdictVideoDimMismatch 32 64 []) ∧
    ((video_frame_svm videoEnvLoadBroken).score = none ∧
      (video_frame_svm videoEnvLoadBroken).verdict =
        verdictVideoLoadFailed (stringCodes ("invalid load key"))) ∧
    (frame_lsb_statistics []).score.isSome = true ∧
    audio_mfcc_svm audioEnvMissing = Except.ok
      { method := methodA2, score := none, p0 := none, p1 := none,
        verdict := verdictAudioNotTrained } :=
  ⟨(claim_C5_degradation videoEnvDimMismatch audioEnvMissing [] []).2.2.1
      (by decide) (by decide) (by decide) (by decide),
   (claim_C5_degradation videoEnvLoadBroken audioEnvMissing [] []).2.1
      (by decide) (by decide),
   (claim_C5_degradation videoEnvDimMismatch audioEnvMissing [] []).2.2.2.1.2,
   ((claim_C5_degradation videoEnvDimMismatch audioEnvMissing [] []).2.2.2.2.1
      (by decide)).1⟩

/-- **C6**: every overview returned by `analyze_audio` consists of exactly the
A1 then A2 results in evaluation order, and every `analyze_video` overview of
the V1 then V2 results; in both, the best score is the numerically greatest
non-null per-method score (an upper bound attained by the first method
reaching it, whose name becomes `best_method`, ties thereby broken in favour
of the earlier method), and when every score is null both best fields are
null (`overviewSpec`). -/
theorem claim_C6_best_combination (aenv : AudioModelEnv) (pcm : List Int)
    (ov : Overview) (frames : List (List (Nat × Nat × Nat))) (venv : VideoModelEnv)
    (h : analyze_audio aenv pcm = Except.ok ov) :
    (∃ r2, audio_mfcc_svm aenv = Except.ok r2 ∧
      ov.methods = [audio_lsb_statistics pcm, r2]) ∧
    overviewSpec ov ∧
    (analyze_video frames venv).methods =
      [frame_lsb_statistics frames, video_frame_svm venv] ∧
    overviewSpec (analyze_video frames venv) := by
  cases ha : audio_mfcc_svm aenv with
  | error e =>
    rw [analyze_audio, ha] at h
    exact absurd h (by simp)
  | ok r2 =>
    rw [analyze_audio, ha] at h
    injection h with h2
    subst h2
    exact ⟨⟨r2, rfl, rfl⟩, overviewSpec_pair _ _, rfl, overviewSpec_pair _ _⟩

/-- **C6** witness: the two-sample audio analysis under the working
environment and a frameless video analysis under the working environment
both satisfy the combination contract. -/
theorem claim_C6_best_combination_witness :
    overviewSpec demoAudioOverview ∧
    (analyze_video [] videoEnvOk).methods =
      [frame_lsb_statistics [], video_frame_svm videoEnvOk] ∧
    overviewSpec (analyze_video [] videoEnvOk) := by
  have h := claim_C6_best_combination audioEnvOk [0, 1] demoAudioOverview [] videoEnvOk
    (by rfl)
  exact ⟨h.2.1, h.2.2.1, h.2.2.2⟩

/-- **C7**: the statistical methods always return a non-null score; on a
zero-length input (empty PCM / no frames) they return score `0.0` with a
descriptive verdict instead of dividing by zero or raising; and on any
non-empty sample/pixel set the score is `balance = 1 - 2*|p1 - 0.5|` for the
reported fraction `p1` of 1-LSBs, lies in `[0, 1]`, equals `1` exactly when
`p1 = 1/2`, and equals `0` when all LSBs agree (`p1 = 0` or `p1 = 1`). -/
theorem claim_C7_balance_bounds (pcm : List Int)
    (frames : List (List (Nat × Nat × Nat))) :
    (audio_lsb_statistics pcm).score.isSome = true ∧
    (frame_lsb_statistics frames).score.isSome = true ∧
    audio_lsb_statistics [] =
      { method := methodA1, score := some 0, p0 := none, p1 := none,
        verdict := verdictAudioTooShort } ∧
    frame_lsb_statistics [] =
      { method := methodV1, score := some 0, p0 := none, p1 := none,
        verdict := verdictNoFrames } ∧
    (pcm ≠ [] → ∃ p b, (audio_lsb_statistics pcm).p1 = some p ∧
      (audio_lsb_statistics pcm).score = some b ∧ b = 1 - |p - 1/2| * 2 ∧
      0 ≤ b ∧ b ≤ 1 ∧ (p = 1/2 ↔ b = 1) ∧ ((p = 0 ∨ p = 1) → b = 0)) ∧
    (frames ≠ [] → frames.flatMap (fun f => f.map
        (fun px => lsbByte (cvtGrayBGR px.1 px.2.1 px.2.2))) ≠ [] →
      ∃ p b, (frame_lsb_statistics frames).p1 = some p ∧
      (frame_lsb_statistics frames).score = some b ∧ b = 1 - |p - 1/2| * 2 ∧
      0 ≤ b ∧ b ≤ 1 ∧ (p = 1/2 ↔ b = 1) ∧ ((p = 0 ∨ p = 1) → b = 0)) := by
  have hstatA : (audio_lsb_statistics pcm).score.isSome = true := by
    simp only [audio_lsb_statistics]
    split_ifs <;> rfl
  have hstatV : (frame_lsb_statistics frames).score.isSome = true := by
    simp only [frame_lsb_statistics]
    split_ifs <;> rfl
  refine ⟨hstatA, hstatV, rfl, rfl, fun hne => ?_, fun hne hpx => ?_⟩
  · have hones : ((pcm.map lsbInt).count true : ℚ) / (pcm.length : ℚ) ≥ 0 := by
      positivity
    have hlenpos : 0 < (pcm.length : ℚ) := by
      have : 0 < pcm.length := List.length_pos.mpr hne
      exact_mod_cast this
    have hcnt : (pcm.map lsbInt).count true ≤ pcm.length := by
      have := List.count_le_length (a := true) (l := pcm.map lsbInt)
      simpa using this
    have hle1 : ((pcm.map lsbInt).count true : ℚ) / (pcm.length : ℚ) ≤ 1 := by
      rw [div_le_one hlenpos]
      exact_mod_cast hcnt
    have hprops := balance_props _ hones hle1
    have hempty : ¬pcm.isEmpty = true := by
      simpa [List.isEmpty_iff] using hne
    refine ⟨_, _, ?_, ?_, rfl, hprops.1, hprops.2.1, hprops.2.2.1, hprops.2.2.2⟩
    · simp only [audio_lsb_statistics, if_neg hempty]
    · simp only [audio_lsb_statistics, if_neg hempty]
  · have hones : ((frames.flatMap (fun f => f.map
        (fun px => lsbByte (cvtGrayBGR px.1 px.2.1 px.2.2)))).count true : ℚ) /
        ((frames.flatMap (fun f => f.map
          (fun px => lsbByte (cvtGrayBGR px.1 px.2.1 px.2.2)))).length : ℚ) ≥ 0 := by
      positivity
    have hlenpos : 0 < ((frames.flatMap (fun f => f.map
        (fun px => lsbByte (cvtGrayBGR px.1 px.2.1 px.2.2)))).length : ℚ) := by
      have : 0 < (frames.flatMap (fun f => f.map
          (fun px => lsbByte (cvtGrayBGR px.1 px.2.1 px.2.2)))).length :=
        List.length_pos.mpr hpx
      exact_mod_cast this
    have hcnt := List.count_le_length (a := true)
      (l := frames.flatMap (fun f => f.map (fun px => lsbByte (cvtGrayBGR px.1 px.2.1 px.2.2))))
    have hle1 : ((frames.flatMap (fun f => f.map
        (fun px => lsbByte (cvtGrayBGR px.1 px.2.1 px.2.2)))).count true : ℚ) /
        ((frames.flatMap (fun f => f.map
          (fun px => lsbByte (cvtGrayBGR px.1 px.2.1 px.2.2)))).length : ℚ) ≤ 1 := by
      rw [div_le_one hlenpos]
      exact_mod_cast hcnt
    have hprops := balance_props _ hones hle1
    have hempty : ¬frames.isEmpty = true := by
      simpa [List.isEmpty_iff] using hne
    refine ⟨_, _, ?_, ?_, rfl, hprops.1, hprops.2.1, hprops.2.2.1, hprops.2.2.2⟩
    · simp only [frame_lsb_statistics, if_neg hempty]
    · simp only [frame_lsb_statistics, if_neg hempty]

/-- **C7** witness: a concrete two-sample file with one odd sample has
`p1 = 1/2` and balance exactly `1`; the all-even four-sample file has
`p1 = 0` and balance `0`; and the empty file returns score `0.0` with the
descriptive verdict. -/
theorem claim_C7_balance_bounds_witness :
    audio_lsb_statistics [] =
      { method := methodA1, score := some 0, p0 := none, p1 := none,
        verdict := verdictAudioTooShort } ∧
    (audio_lsb_statistics [0, 1]).score = some 1 ∧
    (audio_lsb_statistics [0, 2, 4, 6]).score = some 0 := by
  have h := claim_C7_balance_bounds [0, 1] []
  have h2 := claim_C7_balance_bounds [0, 2, 4, 6] []
  obtain ⟨p, b, hp, hb, hform, _, _, hiff, _⟩ := h.2.2.2.2.1 (by decide)
  obtain ⟨q, c, hq, hc, hform2, _, _, _, hzero⟩ := h2.2.2.2.2.1 (by decide)
  have hpval : p = 1/2 := by
    have hv : (audio_lsb_statistics [0, 1]).p1 = some (1/2) := by
      have hemp : ¬([0, 1] : List Int).isEmpty = true := by decide
      simp only [audio_lsb_statistics, if_neg hemp]
      norm_num [lsbInt]
    rw [hv] at hp
    exact (Option.some.inj hp).symm
  have hqval : q = 0 := by
    have hv : (audio_lsb_statistics [0, 2, 4, 6]).p1 = some 0 := by
      have hemp : ¬([0, 2, 4, 6] : List Int).isEmpty = true := by decide
      simp only [audio_lsb_statistics, if_neg hemp]
      norm_num [lsbInt]
    rw [hv] at hq
    exact (Option.some.inj hq).symm
  refine ⟨h.2.2.1, ?_, ?_⟩
  · rw [hb, hiff.mp hpval]
  · rw [hc, hzero (Or.inl hqval)]

end StegDetector
